import Mathlib

/-!
# excelfren: field extraction, unique-value collection, file walk and diff

A shallow embedding of `main.go` and of the run loops of `cmd.go`.

Conventions of the embedding

* A Go function returning `(T, error)` is a pair `T × Option Error`: the second
  component is `none` for a `nil` error; the first component is the value the Go
  code returns beside the error (`""`, `nil`, the zero `Output`).
* A function that can hit a run-time panic returns an `Outcome`.
* A Go `map[string]V` is a partial function `String → Option V`; the order in
  which `range` visits a map is an explicit list of its entries.
* The collaborators the program does not own are inputs of the model: the
  regular-expression library is a parameter `compile`, a workbook is the ordered
  list of its sheets with their rows and merged ranges, the file system is a
  function from paths.
* Go `int` is 64 bits wide; the two additions made on it wrap explicitly.
-/

namespace Excelfren

/-! ## Errors, outcomes, maps -/

/-- Go `error` values, kept by origin instead of by message text. -/
inductive Error where
  /-- `regexp.Compile` rejected the pattern. -/
  | compile (regex : String)
  /-- The workbook has no sheet of that name (`GetRows`, `GetCellValue`). -/
  | sheetNotExist (sheet : String)
  /-- `excelize.CellNameToCoordinates` rejected the reference. -/
  | invalidCellName
  /-- `excelize.CoordinatesToCellName` rejected the coordinates. -/
  | invalidCoordinates (col row : Int)
  /-- `excelize.OpenFile` failed. -/
  | openFile (path : String)
  /-- main.go:156, no sheet name matches. -/
  | sheetNotFound (regex : String)
  /-- main.go:179, no cell matches. -/
  | cellNotFound (regex : String)
  /-- main.go:207, no header cell matches. -/
  | columnNotFound (regex : String)
  /-- main.go:354, the user declined. -/
  | userDeclined
  /-- A file-system error met during the directory walk or a read. -/
  | fileAccess (path : String)
  /-- `fmt.Errorf("<context>: %v", err)`. -/
  | wrapped (context : String) (cause : Error)
  deriving DecidableEq, Repr

/-- Result of a Go function `(T, error)` that may also panic. -/
inductive Outcome (α : Type) where
  /-- Normal return of `val, err`. -/
  | ret (val : α) (err : Option Error)
  /-- Run-time panic (index out of range, nil dereference). -/
  | panic (msg : String)
  deriving DecidableEq, Repr

/-- Go `map[string]V`. -/
abbrev GoMap (V : Type) := String → Option V

/-- `make(map[string]V)`. -/
def GoMap.empty {V : Type} : GoMap V := fun _ => none

/-- `m[k] = v`. -/
def GoMap.set {V : Type} (m : GoMap V) (k : String) (v : V) : GoMap V :=
  fun k' => if k' = k then some v else m k'

/-! ## Data model (main.go:20-35) -/

/-- `FieldConfig`, main.go:21. The offsets are Go `int`s. -/
structure FieldConfig where
  Regex : String
  OffsetX : Int
  OffsetY : Int
  deriving DecidableEq, Repr

/-- `Output`, main.go:28. Time stamps are kept as numbers. -/
structure Output where
  File : String
  BaseFileName : String
  CreatedAt : Nat
  ModifiedAt : Nat
  Data : GoMap String
  UniqueIDs : List String

/-- The zero value `var output Output` (its `Data` is the nil map). -/
def Output.zero : Output :=
  { File := "", BaseFileName := "", CreatedAt := 0, ModifiedAt := 0,
    Data := GoMap.empty, UniqueIDs := [] }

/-! ## Go integers -/

/-- Wrap-around of a 64-bit signed Go `int`. -/
def wrapInt (n : Int) : Int := (n + 2 ^ 63) % 2 ^ 64 - 2 ^ 63

/-- The value is representable as a Go `int`. -/
def IsGoInt (n : Int) : Prop := -(2 ^ 63) ≤ n ∧ n < 2 ^ 63

instance (n : Int) : Decidable (IsGoInt n) := by
  unfold IsGoInt; exact inferInstance

/-! ## The spreadsheet library (excelize), as far as the program uses it -/

/-- Rows of a sheet as `GetRows` gives them: rows may have unequal length. -/
abbrev Grid := List (List String)

/-- `excelize.MaxColumns`. -/
def MaxColumns : Int := 16384

/-- `excelize.TotalRows`. -/
def TotalRows : Int := 1048576

/-- A cell reference. The library's text form (`"C5"`) is kept as the pair of
one-indexed coordinates it denotes; `empty` is the string `""`. -/
inductive CellName where
  | empty
  | ref (col row : Int)
  deriving DecidableEq, Repr

/-- One-indexed coordinates the library accepts. -/
def ValidCoordinates (col row : Int) : Prop :=
  1 ≤ col ∧ col ≤ MaxColumns ∧ 1 ≤ row ∧ row ≤ TotalRows

instance (col row : Int) : Decidable (ValidCoordinates col row) := by
  unfold ValidCoordinates; exact inferInstance

/-- `excelize.CoordinatesToCellName`: fails when a coordinate is below 1 or
beyond the sheet limits. -/
def CoordinatesToCellName (col row : Int) : CellName × Option Error :=
  if col < 1 ∨ row < 1 then (CellName.empty, some (Error.invalidCoordinates col row))
  else if row > TotalRows then (CellName.empty, some (Error.invalidCoordinates col row))
  else if col > MaxColumns then (CellName.empty, some (Error.invalidCoordinates col row))
  else (CellName.ref col row, none)

/-- `excelize.CellNameToCoordinates`. -/
def CellNameToCoordinates (cell : CellName) : (Int × Int) × Option Error :=
  match cell with
  | CellName.empty => ((-1, -1), some Error.invalidCellName)
  | CellName.ref col row =>
    if ValidCoordinates col row then ((col, row), none)
    else ((-1, -1), some Error.invalidCellName)

/-- A merged range of a sheet, by the one-indexed coordinates of its top-left
and bottom-right cells (`"B2:C3"` is `2, 2, 3, 3`). -/
structure MergeCell where
  col1 : Int
  row1 : Int
  col2 : Int
  row2 : Int
  deriving DecidableEq, Repr

/-- The cell `(col, row)` lies in the merged range. -/
def MergeCell.contains (mc : MergeCell) (col row : Int) : Bool :=
  decide (mc.col1 ≤ col) && decide (col ≤ mc.col2) && decide (mc.row1 ≤ row)
    && decide (row ≤ mc.row2)

/-- A sheet: its name, its rows as `GetRows` gives them, and its merged
ranges. -/
structure Sheet where
  name : String
  rows : Grid
  mergeCells : List MergeCell := []
  deriving DecidableEq, Repr

/-- An open workbook, `*excelize.File`: its sheets in workbook order. -/
structure File where
  sheets : List Sheet
  deriving DecidableEq, Repr

/-- `f.GetSheetList()`. -/
def File.GetSheetList (f : File) : List String := f.sheets.map Sheet.name

/-- `f.GetRows(sheetName)`. -/
def File.GetRows (f : File) (sheetName : String) : Grid × Option Error :=
  match f.sheets.find? (fun s => s.name == sheetName) with
  | some s => (s.rows, none)
  | none => ([], some (Error.sheetNotExist sheetName))

/-- The text of the cell at one-indexed `(col, row)` of a grid; a cell the grid
does not hold is empty. -/
def Grid.cellAt (rows : Grid) (col row : Int) : String :=
  if 1 ≤ col ∧ 1 ≤ row then
    ((rows.getD (row - 1).toNat []).getD (col - 1).toNat "")
  else ""

/-- The merged ranges of a sheet, `f.GetMergeCells(sheetName)`; none for a sheet
the workbook does not have. -/
def File.GetMergeCells (f : File) (sheetName : String) : List MergeCell :=
  match f.sheets.find? (fun s => s.name == sheetName) with
  | some s => s.mergeCells
  | none => []

/-- The cell whose value the library reads for `(col, row)`: the top-left cell
of the first merged range that holds the cell, the cell itself when no merged
range holds it (`mergeCellsParser` of the library). -/
def mergeCellsParser : List MergeCell → Int → Int → Int × Int
  | [], col, row => (col, row)
  | mc :: rest, col, row =>
    if mc.contains col row then (mc.col1, mc.row1) else mergeCellsParser rest col row

/-- The text the library reads for the cell `(col, row)` of a sheet with the
given rows and merged ranges: every cell of a merged range reads as the
top-left cell of the range. -/
def Grid.valueAt (rows : Grid) (mergeCells : List MergeCell) (col row : Int) : String :=
  rows.cellAt (mergeCellsParser mergeCells col row).1 (mergeCellsParser mergeCells col row).2

/-- `f.GetCellValue(sheetName, cell)`. -/
def File.GetCellValue (f : File) (sheetName : String) (cell : CellName) :
    String × Option Error :=
  match f.sheets.find? (fun s => s.name == sheetName) with
  | none => ("", some (Error.sheetNotExist sheetName))
  | some s =>
    match CellNameToCoordinates cell with
    | (_, some e) => ("", some e)
    | ((col, row), none) => (s.rows.valueAt s.mergeCells col row, none)

/-- A grid that fits in a sheet. -/
def Grid.WithinLimits (rows : Grid) : Prop :=
  (rows.length : Int) ≤ TotalRows ∧ ∀ row ∈ rows, (row.length : Int) ≤ MaxColumns

instance (rows : Grid) : Decidable rows.WithinLimits := by
  unfold Grid.WithinLimits; exact inferInstance

/-! ## The regular-expression library -/

/-- A compiled pattern, by its `MatchString`. -/
abbrev Regexp := String → Bool

/-- `regexp.Compile`: `none` when the pattern is rejected. -/
abbrev Compiler := String → Option Regexp

/-! ## Go standard library helpers -/

/-- `unicode.IsSpace`. -/
def isSpace (c : Char) : Bool :=
  let n := c.toNat
  n == 9 || n == 10 || n == 11 || n == 12 || n == 13 || n == 32 || n == 0x85 || n == 0xA0
    || n == 0x1680 || (0x2000 ≤ n && n ≤ 0x200A) || n == 0x2028 || n == 0x2029
    || n == 0x202F || n == 0x205F || n == 0x3000

/-- `strings.TrimSpace`. -/
def TrimSpace (s : String) : String :=
  String.mk ((s.data.dropWhile isSpace).reverse.dropWhile isSpace).reverse

/-- `strings.HasPrefix`. -/
def HasPrefix (s pre : String) : Bool := pre.data.isPrefixOf s.data

/-- `strings.HasSuffix`. -/
def HasSuffix (s suf : String) : Bool := suf.data.reverse.isPrefixOf s.data.reverse

/-- The backwards scan of `filepath.Ext`, over the reversed path: stop at a path
separator, return the suffix from the last dot on. -/
def extScan (isPathSeparator : Char → Bool) : List Char → List Char → List Char
  | [], _ => []
  | c :: rest, acc =>
    if isPathSeparator c then []
    else if c = '.' then c :: acc
    else extScan isPathSeparator rest (c :: acc)

/-- `filepath.Ext`; `os.IsPathSeparator` depends on the platform and is an input. -/
def Ext (isPathSeparator : Char → Bool) (path : String) : String :=
  String.mk (extScan isPathSeparator path.data.reverse [])

/-! ## main.go:144-157, findSheetByRegex -/

/-- The loop `for _, sheet := range f.GetSheetList()` of main.go:150-154;
`none` when it runs to its end. -/
def findSheetLoop (re : Regexp) : List String → Option String
  | [] => none
  | sheet :: rest => if re sheet then some sheet else findSheetLoop re rest

/-- `findSheetByRegex`, main.go:144. -/
def findSheetByRegex (compile : Compiler) (f : File) (regex : String) :
    String × Option Error :=
  match compile regex with
  | none => ("", some (Error.compile regex))
  | some re =>
    match findSheetLoop re f.GetSheetList with
    | some sheet => (sheet, none)
    | none => ("", some (Error.sheetNotFound regex))

/-! ## main.go:160-180, findCellByRegex -/

/-- The inner loop `for colIndex, cell := range row`, main.go:172-176; `none`
when the row has no matching cell. -/
def findCellInRow (re : Regexp) (rowIndex : Nat) :
    Nat → List String → Option (CellName × Option Error)
  | _, [] => none
  | colIndex, cell :: rest =>
    if re cell then
      some (CoordinatesToCellName ((colIndex : Int) + 1) ((rowIndex : Int) + 1))
    else findCellInRow re rowIndex (colIndex + 1) rest

/-- The outer loop `for rowIndex, row := range rows`, main.go:171-177. -/
def findCellInRows (re : Regexp) : Nat → Grid → Option (CellName × Option Error)
  | _, [] => none
  | rowIndex, row :: rest =>
    match findCellInRow re rowIndex 0 row with
    | some r => some r
    | none => findCellInRows re (rowIndex + 1) rest

/-- `findCellByRegex`, main.go:160. -/
def findCellByRegex (compile : Compiler) (f : File) (sheetName regex : String) :
    CellName × Option Error :=
  match f.GetRows sheetName with
  | (_, some err) => (CellName.empty, some err)
  | (rows, none) =>
    match compile regex with
    | none => (CellName.empty, some (Error.compile regex))
    | some re =>
      match findCellInRows re 0 rows with
      | some r => r
      | none => (CellName.empty, some (Error.cellNotFound regex))

/-! ## main.go:183-224, findUniqueValues -/

/-- The header loop of main.go:199-204, started with `columnIndex = -1`. -/
def headerLoop (re : Regexp) : Nat → List String → Int
  | _, [] => -1
  | colIndex, cell :: rest =>
    if re cell then (colIndex : Int) else headerLoop re (colIndex + 1) rest

/-- The loop `for _, row := range rows[1:]` of main.go:211-221 on the state
`(valueSet, uniqueValues)`. -/
def collectLoop (columnIndex : Int) :
    Grid → GoMap Unit × List String → GoMap Unit × List String
  | [], st => st
  | row :: rest, (valueSet, uniqueValues) =>
    if (row.length : Int) > columnIndex then
      let value := TrimSpace (row.getD columnIndex.toNat "")
      if value ≠ "" then
        if (valueSet value).isNone then
          collectLoop columnIndex rest (valueSet.set value (), uniqueValues ++ [value])
        else collectLoop columnIndex rest (valueSet, uniqueValues)
      else collectLoop columnIndex rest (valueSet, uniqueValues)
    else collectLoop columnIndex rest (valueSet, uniqueValues)

/-- `findUniqueValues`, main.go:183. `rows[0]` panics on a sheet without rows. -/
def findUniqueValues (compile : Compiler) (f : File) (sheetName regex : String) :
    Outcome (List String) :=
  match f.GetRows sheetName with
  | (_, some err) => Outcome.ret [] (some err)
  | (rows, none) =>
    match compile regex with
    | none => Outcome.ret [] (some (Error.compile regex))
    | some re =>
      match rows with
      | [] => Outcome.panic "index out of range [0] with length 0"
      | header :: rest =>
        let columnIndex := headerLoop re 0 header
        if columnIndex = -1 then Outcome.ret [] (some (Error.columnNotFound regex))
        else Outcome.ret (collectLoop columnIndex rest (GoMap.empty, [])).2 none

/-! ## main.go:58-141, processFile -/

/-- What `os.Stat` and `times.Get` tell about a file. -/
structure FileInfo where
  Name : String
  BirthTime : Nat
  ModTime : Nat
  deriving DecidableEq, Repr

/-- A file on disk that `excelize.OpenFile` can open; `info` is `none` when
`os.Stat` fails on it. -/
structure DiskFile where
  book : File
  info : Option FileInfo
  deriving DecidableEq, Repr

/-- The files `excelize.OpenFile` can open, by path. -/
abbrev FileSystem := String → Option DiskFile

/-- The identifier sheet, main.go:76-83: `SAP`, else `OFERTA`. -/
def identifierSheet (compile : Compiler) (f : File) : String × Option Error :=
  match findSheetByRegex compile f "(?i)^SAP$" with
  | (sapSheet, none) => (sapSheet, none)
  | (_, some _) =>
    match findSheetByRegex compile f "(?i)^OFERTA$" with
    | (sapSheet, none) => (sapSheet, none)
    | (_, some err) =>
      ("", some (Error.wrapped "no se pudo encontrar la hoja de SAP u OFERTA" err))

/-- The loop `for field, config := range fieldConfigs` of main.go:86-115 on the
map `results`; the list is the order in which `range` visits the map. An error
is the `return output, err` of lines 98, 104 and 110. -/
def fieldLoop (compile : Compiler) (f : File) (fichaSheet : String) :
    List (String × FieldConfig) → GoMap String → GoMap String × Option Error
  | [], results => (results, none)
  | (field, config) :: rest, results =>
    match findCellByRegex compile f fichaSheet ("(?i)" ++ config.Regex) with
    | (_, some _) => fieldLoop compile f fichaSheet rest results
    | (cell, none) =>
      if cell ≠ CellName.empty then
        match CellNameToCoordinates cell with
        | (_, some err) =>
          (results, some (Error.wrapped
            "no se pudo convertir el nombre de la celda a coordenadas" err))
        | ((x, y), none) =>
          match CoordinatesToCellName (wrapInt (x + config.OffsetX))
              (wrapInt (y - config.OffsetY)) with
          | (_, some err) =>
            (results, some (Error.wrapped
              "no se pudo convertir las coordenadas a nombre de celda" err))
          | (targetCell, none) =>
            match f.GetCellValue fichaSheet targetCell with
            | (_, some err) =>
              (results, some (Error.wrapped "no se pudo obtener el valor de la celda" err))
            | (value, none) =>
              fieldLoop compile f fichaSheet rest (results.set field value)
      else fieldLoop compile f fichaSheet rest results

/-- `processFile`, main.go:58. -/
def processFile (compile : Compiler) (fs : FileSystem) (filePath : String)
    (fieldConfigs : List (String × FieldConfig)) : Outcome Output :=
  match fs filePath with
  | none =>
    Outcome.ret Output.zero
      (some (Error.wrapped "no se pudo abrir el archivo Excel" (Error.openFile filePath)))
  | some disk =>
    let f := disk.book
    match findSheetByRegex compile f "(?i)^FICHA$" with
    | (_, some err) =>
      Outcome.ret Output.zero
        (some (Error.wrapped "no se pudo encontrar la hoja de FICHA" err))
    | (fichaSheet, none) =>
      match identifierSheet compile f with
      | (_, some err) => Outcome.ret Output.zero (some err)
      | (sapSheet, none) =>
        match fieldLoop compile f fichaSheet fieldConfigs GoMap.empty with
        | (_, some err) => Outcome.ret Output.zero (some err)
        | (results, none) =>
          match disk.info with
          | none => Outcome.panic "invalid memory address or nil pointer dereference"
          | some finfo =>
            let output : Output :=
              { File := filePath, BaseFileName := finfo.Name,
                CreatedAt := finfo.BirthTime, ModifiedAt := finfo.ModTime,
                Data := results, UniqueIDs := [] }
            match findUniqueValues compile f sapSheet "(?i)Registral" with
            | Outcome.panic msg => Outcome.panic msg
            | Outcome.ret _ (some err) =>
              Outcome.ret output (some (Error.wrapped
                "no se pudo obtener los valores únicos de la columna Registral" err))
            | Outcome.ret uniqueIDs none =>
              Outcome.ret { output with UniqueIDs := uniqueIDs } none

/-! ## main.go:227-273, the directory walk -/

/-- One call of the `filepath.Walk` callback: the entry's path, what `info`
says about it, and the error the walk met on it. -/
structure Visit where
  path : String
  name : String
  isDir : Bool
  err : Option Error
  deriving DecidableEq, Repr

/-- The four counters of `countExcelFiles`. -/
structure Counters where
  x_files : Nat
  m_files : Nat
  s_files : Nat
  d_files : Nat
  deriving DecidableEq, Repr

/-- The callback of main.go:234-251 over the visits of the walk; the walk ends
at the first visit whose callback returns an error. -/
def countWalk (isPathSeparator : Char → Bool) :
    List Visit → Counters → Counters × Option Error
  | [], c => (c, none)
  | v :: rest, c =>
    match v.err with
    | some err => (c, some err)
    | none =>
      if !v.isDir && !HasPrefix v.name "~" then
        let ext := Ext isPathSeparator v.name
        if ext = ".xlsx" then
          countWalk isPathSeparator rest { c with x_files := c.x_files + 1 }
        else if ext = ".xlsm" then
          countWalk isPathSeparator rest { c with m_files := c.m_files + 1 }
        else if ext = ".xls" then
          countWalk isPathSeparator rest { c with s_files := c.s_files + 1 }
        else countWalk isPathSeparator rest { c with d_files := c.d_files + 1 }
      else countWalk isPathSeparator rest c

/-- The counters `countExcelFiles` reports, main.go:227; the four result lines
print them. -/
def countExcelFiles (isPathSeparator : Char → Bool) (walk : List Visit) :
    Counters × Option Error :=
  countWalk isPathSeparator walk { x_files := 0, m_files := 0, s_files := 0, d_files := 0 }

/-- The report lines of main.go:252-255. -/
def countReport (c : Counters) : List String :=
  [ "xlsx files total count: " ++ toString c.x_files,
    "xlsm files total count: " ++ toString c.m_files,
    "xls files total count: " ++ toString c.s_files,
    "rest of the files total count: " ++ toString c.d_files ]

/-- The callback of main.go:263-271 over the visits of the walk. -/
def collectWalk : List Visit → List String → List String × Option Error
  | [], files => (files, none)
  | v :: rest, files =>
    match v.err with
    | some err => (files, some err)
    | none =>
      if !v.isDir && HasSuffix v.name ".xlsx" && !HasPrefix v.name "~" then
        collectWalk rest (files ++ [v.path])
      else collectWalk rest files

/-- `collectExcelFiles`, main.go:260. -/
def collectExcelFiles (walk : List Visit) : List String × Option Error :=
  collectWalk walk []

/-! ## main.go:302-361, the diff against the prior log -/

/-- The loop of main.go:313-315. -/
def processedFilesLoop : List Output → GoMap Output → GoMap Output
  | [], processedFiles => processedFiles
  | output :: rest, processedFiles =>
    processedFilesLoop rest (processedFiles.set output.File output)

/-- `readProcessedFiles`, main.go:302; `log` is the decoded content of the JSON
file, `none` when it cannot be read or parsed. -/
def readProcessedFiles (jsonPath : String) (log : Option (List Output)) :
    GoMap Output × Option Error :=
  match log with
  | none => (GoMap.empty, some (Error.fileAccess jsonPath))
  | some outputs => (processedFilesLoop outputs GoMap.empty, none)

/-- The loop of main.go:334-339. -/
def newFilesLoop (processedFiles : GoMap Output) : List String → List String → List String
  | [], newFiles => newFiles
  | file :: rest, newFiles =>
    if (processedFiles file).isNone then
      newFilesLoop processedFiles rest (newFiles ++ [file])
    else newFilesLoop processedFiles rest newFiles

/-- `compareAndPrompt`, main.go:320; `response` is the answer read from the
terminal as line 351 leaves it. -/
def compareAndPrompt (jsonPath : String) (log : Option (List Output)) (walk : List Visit)
    (response : String) : List String × Option Error :=
  match readProcessedFiles jsonPath log with
  | (_, some err) => ([], some err)
  | (processedFiles, none) =>
    match collectExcelFiles walk with
    | (_, some err) => ([], some err)
    | (allFiles, none) =>
      let newFiles := newFilesLoop processedFiles allFiles []
      if newFiles.length > 0 then
        if response ≠ "s" ∧ response ≠ "y" then ([], some Error.userDeclined)
        else (newFiles, none)
      else (newFiles, none)

/-! ## cmd.go:268-284, the directory pass of the read command -/

/-- State in which a run loop ends. -/
inductive Run where
  /-- The loop ended with these results. -/
  | done (results : List Output)
  /-- A panic ended the program. -/
  | panicked (msg : String)

/-- The loop `for i, path := range excelFiles` of cmd.go:268-284; `process` is
`processFile(path, fieldConfigs)`. -/
def readLoop (process : String → Outcome Output) (maxFiles : Int) :
    Nat → List String → List Output → Run
  | _, [], results => Run.done results
  | i, path :: rest, results =>
    match process path with
    | Outcome.panic msg => Run.panicked msg
    | Outcome.ret _ (some _) => readLoop process maxFiles (i + 1) rest results
    | Outcome.ret output none =>
      if (i : Int) + 1 = maxFiles then Run.done (results ++ [output])
      else readLoop process maxFiles (i + 1) rest (results ++ [output])

/-- The loop `for _, file := range newFiles` of cmd.go:76-84. -/
def diffLoop (process : String → Outcome Output) : List String → List Output → Run
  | [], results => Run.done results
  | file :: rest, results =>
    match process file with
    | Outcome.panic msg => Run.panicked msg
    | Outcome.ret _ (some _) => diffLoop process rest results
    | Outcome.ret output none => diffLoop process rest (results ++ [output])

/-! ## The body of the field loop, taken apart for the proofs -/

/-- What one turn of the loop of main.go:86-115 does for a field. -/
inductive FieldStep where
  /-- `continue` of line 91, or the empty cell name of line 94. -/
  | skip
  /-- `results[field] = value`, line 113. -/
  | store (value : String)
  /-- `return output, err`, lines 98, 104, 110. -/
  | abort (err : Error)
  deriving DecidableEq, Repr

/-- The turn of the loop for one field configuration. -/
def fieldStep (compile : Compiler) (f : File) (fichaSheet : String) (config : FieldConfig) :
    FieldStep :=
  match findCellByRegex compile f fichaSheet ("(?i)" ++ config.Regex) with
  | (_, some _) => FieldStep.skip
  | (cell, none) =>
    if cell ≠ CellName.empty then
      match CellNameToCoordinates cell with
      | (_, some err) =>
        FieldStep.abort (Error.wrapped
          "no se pudo convertir el nombre de la celda a coordenadas" err)
      | ((x, y), none) =>
        match CoordinatesToCellName (wrapInt (x + config.OffsetX))
            (wrapInt (y - config.OffsetY)) with
        | (_, some err) =>
          FieldStep.abort (Error.wrapped
            "no se pudo convertir las coordenadas a nombre de celda" err)
        | (targetCell, none) =>
          match f.GetCellValue fichaSheet targetCell with
          | (_, some err) =>
            FieldStep.abort (Error.wrapped "no se pudo obtener el valor de la celda" err)
          | (value, none) => FieldStep.store value
    else FieldStep.skip

/-! ## The specification's sheet locator (spec §4.1) -/

/-- The name `sheet` is the first of `names`, in their order, that the pattern
matches. -/
def IsFirstMatch (re : Regexp) (names : List String) (sheet : String) : Prop :=
  ∃ before after, names = before ++ sheet :: after ∧ re sheet = true
    ∧ ∀ s ∈ before, re s = false

/-- The error says that a sheet was not found: a `sheetNotFound` of
`findSheetByRegex` with the context `processFile` puts around it. -/
def Error.isSheetNotFound : Error → Bool
  | Error.wrapped _ (Error.sheetNotFound _) => true
  | _ => false

/-! ## The specification's collector (spec §4.3), to compare with the code -/

/-- The trimmed, non-empty values at column `col` (zero-indexed) of the rows
after the header, in row order; rows too short to have the column give none. -/
def columnValues (col : Nat) (rest : Grid) : List String :=
  ((rest.filterMap (fun row => row[col]?)).map TrimSpace).filter (fun v => v ≠ "")

/-- First-occurrence de-duplication: each value is kept where it first stands. -/
def dedupFirst : List String → List String
  | [] => []
  | v :: vs => v :: (dedupFirst vs).filter (fun w => w ≠ v)

/-! ## Concrete inputs on which the definitions are evaluated -/

/-- Lower case of an ASCII letter. -/
def lowerAscii (c : Char) : Char :=
  if 65 ≤ c.toNat ∧ c.toNat ≤ 90 then Char.ofNat (c.toNat + 32) else c

/-- The text has the literal at its start; `toEnd` asks that it ends there. -/
def literalAtStart (toEnd : Bool) : List Char → List Char → Bool
  | [], text => !toEnd || text.isEmpty
  | _ :: _, [] => false
  | l :: lit, t :: text => l == t && literalAtStart toEnd lit text

/-- The text holds the literal somewhere. -/
def literalSomewhere (toEnd : Bool) (lit : List Char) : List Char → Bool
  | [] => literalAtStart toEnd lit []
  | t :: text => literalAtStart toEnd lit (t :: text) || literalSomewhere toEnd lit text

/-- Characters that have a meaning of their own in a pattern. -/
def isMeta (c : Char) : Bool := "\\.+*?()|[]\x7b\x7d^$".data.contains c

/-- A regular-expression engine for the patterns `(?i)lit`, `(?i)^lit`,
`(?i)lit$` and `(?i)^lit$` with `lit` a text of ASCII characters without
metacharacters, matched without regard to ASCII case; every other pattern is
rejected. It stands for `regexp.Compile` where the definitions are evaluated. -/
def literalCompile : Compiler := fun regex =>
  match regex.data with
  | '(' :: '?' :: 'i' :: ')' :: body =>
    let fromStart := body.head? == some '^'
    let body := if fromStart then body.drop 1 else body
    let toEnd := body.getLast? == some '$'
    let body := if toEnd then body.dropLast else body
    if body.any isMeta || body.any (fun c => c.toNat ≥ 128) then none
    else
      let lit := body.map lowerAscii
      some (fun text =>
        if fromStart then literalAtStart toEnd lit (text.data.map lowerAscii)
        else literalSomewhere toEnd lit (text.data.map lowerAscii))
  | _ => none

/-- A log record of a processed file. -/
def logRecord (path : String) : Output := { Output.zero with File := path }

/-- An identifier sheet: the header names the column, the values of the
column are `B, A, B, C, A` (one with blanks around it), one row is too short to
have the column and one cell is blank. -/
def idSheet : Sheet :=
  { name := "SAP",
    rows := [["Id", "Finca Registral"], ["1", "B"], ["2", "A"], ["3"], ["4", " B "],
      ["5", "  "], ["6", "C"], ["7", "A"]] }

/-- A workbook with the identifier sheet only. -/
def idBook : File := { sheets := [idSheet] }

/-- The value a call returned without error, if it did. -/
def Outcome.value? {α : Type} : Outcome α → Option α
  | Outcome.ret val none => some val
  | _ => none

/-- The error a call returned, if it returned one. -/
def Outcome.error? {α : Type} : Outcome α → Option Error
  | Outcome.ret _ err => err
  | Outcome.panic _ => none

/-- The results with which a run loop ended, if it did not panic. -/
def Run.results? : Run → Option (List Output)
  | Run.done results => some results
  | Run.panicked _ => none

/-- A data sheet: `B2` holds the label `Name:` and `C2` its value; `C5` holds
the label `Total:` whose value stands at `E4`. -/
def offerSheet : Sheet :=
  { name := "Ficha",
    rows := [["Oferta 12"], ["", "Name:", "Acme"], [], ["", "", "", "", "42"],
      ["", "", "Total:"]] }

/-- A workbook with a data sheet and an identifier sheet. -/
def offerBook : File := { sheets := [offerSheet, idSheet] }

/-- The field configuration of the end-to-end scenario, with a second field. -/
def offerConfig : List (String × FieldConfig) :=
  [("name", { Regex := "Name:", OffsetX := 1, OffsetY := 0 }),
   ("total", { Regex := "Total:", OffsetX := 2, OffsetY := 1 })]

/-- A file system holding the workbook under one path. -/
def offerDisk : FileSystem := fun path =>
  if path = "2024/oferta.xlsx" then
    some { book := offerBook,
           info := some { Name := "oferta.xlsx", BirthTime := 1700000000, ModTime := 1700000500 } }
  else none

/-- The configuration with a third field whose label the data sheet lacks. -/
def offerConfigWithCif : List (String × FieldConfig) :=
  ("cif", { Regex := "CIF:", OffsetX := 1, OffsetY := 0 }) :: offerConfig

/-- A configuration whose field `total` points above the first row: the label
stands in row 5 and the vertical offset is 5. -/
def offerConfigBadOffset : List (String × FieldConfig) :=
  [("name", { Regex := "Name:", OffsetX := 1, OffsetY := 0 }),
   ("total", { Regex := "Total:", OffsetX := 2, OffsetY := 5 })]

/-- A workbook without a data sheet: `processFile` fails on it. -/
def noFichaBook : File := { sheets := [idSheet] }

/-- A directory of three offers; the first cannot be processed. -/
def threeOffersDisk : FileSystem := fun path =>
  if path = "2024/a.xlsx" then
    some { book := noFichaBook, info := some { Name := "a.xlsx", BirthTime := 1, ModTime := 2 } }
  else if path = "2024/b.xlsx" then
    some { book := offerBook, info := some { Name := "b.xlsx", BirthTime := 3, ModTime := 4 } }
  else if path = "2024/c.xlsx" then
    some { book := offerBook, info := some { Name := "c.xlsx", BirthTime := 5, ModTime := 6 } }
  else none

/-- A workbook with both alternatives of the identifier sheet, in mixed case. -/
def twoIdBook : File :=
  { sheets := [{ name := "Resumen", rows := [] }, { name := "oferta", rows := [["Registral"]] },
      offerSheet, { name := "Sap", rows := [["Registral"], ["X"]] }, idSheet] }

/-- A workbook that has the data sheet and the identifier sheet, but whose
identifier sheet lacks the column `Registral`. -/
def noColumnBook : File :=
  { sheets := [offerSheet, { name := "SAP", rows := [["Id", "Catastral"], ["1", "B"]] }] }

/-- A file system holding that workbook. -/
def noColumnDisk : FileSystem := fun path =>
  if path = "2024/sin-columna.xlsx" then
    some { book := noColumnBook,
           info := some { Name := "sin-columna.xlsx", BirthTime := 7, ModTime := 8 } }
  else none

/-- The configuration of the scenario, visited in the other order. -/
def offerConfigReversed : List (String × FieldConfig) := offerConfig.reverse

/-- The walk skips the entry: it is a directory or its name begins with `~`. -/
def Visit.excluded (v : Visit) : Bool := v.isDir || HasPrefix v.name "~"

/-- A file entry of a walk. -/
def fileVisit (path name : String) : Visit :=
  { path := path, name := name, isDir := false, err := none }

/-- A walk over a directory with lock files beside the offers. -/
def offersWalk : List Visit :=
  [ { path := "2024", name := "2024", isDir := true, err := none },
    fileVisit "2024/a.xlsx" "a.xlsx",
    fileVisit "2024/~temp.xlsx" "~temp.xlsx",
    fileVisit "2024/~$b.xlsm" "~$b.xlsm",
    fileVisit "2024/b.xlsm" "b.xlsm",
    { path := "2024/old.xlsx", name := "old.xlsx", isDir := true, err := none },
    fileVisit "2024/old.xlsx/c.xls" "c.xls",
    fileVisit "2024/~notes.txt" "~notes.txt",
    fileVisit "2024/notes.txt" "notes.txt",
    fileVisit "2024/d.xlsx" "d.xlsx" ]

/-- The message of the panic that ended a call, if one did. -/
def Outcome.panic? {α : Type} : Outcome α → Option String
  | Outcome.panic msg => some msg
  | Outcome.ret _ _ => none

/-- The message of the panic that ended a run loop, if one did. -/
def Run.panic? : Run → Option String
  | Run.panicked msg => some msg
  | Run.done _ => none

/-- A workbook whose identifier sheet `SAP` is empty: `GetRows` gives no row. -/
def emptyIdBook : File := { sheets := [offerSheet, { name := "SAP", rows := [] }] }

/-- A directory with that workbook and a well-formed offer after it. -/
def emptyIdDisk : FileSystem := fun path =>
  if path = "2024/vacia.xlsx" then
    some { book := emptyIdBook, info := some { Name := "vacia.xlsx", BirthTime := 9, ModTime := 10 } }
  else if path = "2024/oferta.xlsx" then
    some { book := offerBook, info := some { Name := "oferta.xlsx", BirthTime := 11, ModTime := 12 } }
  else none

/-- A data sheet with a merged value cell: `A1` holds the label `Cliente:`,
the range `B1:C1` is merged and holds `Acme` (in its top-left cell `B1`). -/
def mergedSheet : Sheet :=
  { name := "Ficha", rows := [["Cliente:", "Acme"]],
    mergeCells := [{ col1 := 2, row1 := 1, col2 := 3, row2 := 1 }] }

/-- A workbook with that data sheet and an identifier sheet. -/
def mergedBook : File := { sheets := [mergedSheet, idSheet] }

/-- A file system holding that workbook. -/
def mergedDisk : FileSystem := fun path =>
  if path = "2024/combinada.xlsx" then
    some { book := mergedBook,
           info := some { Name := "combinada.xlsx", BirthTime := 13, ModTime := 14 } }
  else none

/-- A field whose value is read two columns to the right of its label. -/
def mergedConfig : List (String × FieldConfig) :=
  [("cliente", { Regex := "Cliente:", OffsetX := 2, OffsetY := 0 })]

/-! ## Diff engine -/

theorem newFilesLoop_eq_append (processedFiles : GoMap Output) (allFiles acc : List String) :
    newFilesLoop processedFiles allFiles acc
      = acc ++ allFiles.filter (fun file => (processedFiles file).isNone) := by
  induction allFiles generalizing acc with
  | nil => simp [newFilesLoop]
  | cons file rest ih =>
    by_cases h : (processedFiles file).isNone = true
    · simp [newFilesLoop, h, ih]
    · simp [newFilesLoop, h, ih]

theorem processedFilesLoop_isNone (outputs : List Output) (m : GoMap Output) (path : String) :
    (processedFilesLoop outputs m path).isNone
      = (decide (path ∉ outputs.map Output.File) && (m path).isNone) := by
  induction outputs generalizing m with
  | nil => simp [processedFilesLoop]
  | cons o rest ih =>
    rw [processedFilesLoop, ih]
    by_cases h : path = o.File
    · simp [GoMap.set, h]
    · simp [GoMap.set, h]

/-- C1. The new files found by the loop of `compareAndPrompt` are exactly the
entries of the current listing whose path is not a key of the prior log, in the
listing's order: the result is the listing filtered by absence from the log, it
is a sub-sequence of the listing, a path is in it iff it is in the listing and
absent from the log, and each such path keeps its multiplicity. For the log that
`readProcessedFiles` builds from the records of the JSON file, the keys are the
`file` entries of the records. -/
theorem newFilesLoop_diff (processedFiles : GoMap Output) (outputs : List Output)
    (allFiles : List String) :
    newFilesLoop processedFiles allFiles []
        = allFiles.filter (fun file => (processedFiles file).isNone)
      ∧ (newFilesLoop processedFiles allFiles []).Sublist allFiles
      ∧ (∀ file, file ∈ newFilesLoop processedFiles allFiles []
            ↔ file ∈ allFiles ∧ processedFiles file = none)
      ∧ (∀ file, processedFiles file = none →
            (newFilesLoop processedFiles allFiles []).count file = allFiles.count file)
      ∧ newFilesLoop (processedFilesLoop outputs GoMap.empty) allFiles []
          = allFiles.filter (fun file => decide (file ∉ outputs.map Output.File)) := by
  have h := newFilesLoop_eq_append processedFiles allFiles []
  simp only [List.nil_append] at h
  refine ⟨h, ?_, ?_, ?_, ?_⟩
  · rw [h]; exact List.filter_sublist allFiles
  · intro file
    rw [h, List.mem_filter]
    simp
  · intro file hfile
    rw [h, List.count_filter]
    simp [hfile]
  · rw [newFilesLoop_eq_append]
    simp [processedFilesLoop_isNone, GoMap.empty]

/-- C1, the example of the specification: the prior log holds `a.xlsx` and
`b.xlsx`, the listing is `a.xlsx, b.xlsx, c.xlsx`, the new files are `c.xlsx`. -/
theorem newFilesLoop_diff_example :
    newFilesLoop (processedFilesLoop [logRecord "a.xlsx", logRecord "b.xlsx"] GoMap.empty)
      ["a.xlsx", "b.xlsx", "c.xlsx"] [] = ["c.xlsx"] := by
  rw [(newFilesLoop_diff GoMap.empty [logRecord "a.xlsx", logRecord "b.xlsx"]
    ["a.xlsx", "b.xlsx", "c.xlsx"]).2.2.2.2]
  decide

/-! ## Unique-value collector -/

theorem dedupFirst_mem (vals : List String) (v : String) :
    v ∈ dedupFirst vals ↔ v ∈ vals := by
  induction vals with
  | nil => simp [dedupFirst]
  | cons a vs ih =>
    by_cases h : v = a
    · simp [dedupFirst, h]
    · simp [dedupFirst, h, List.mem_filter, ih]

theorem dedupFirst_nodup (vals : List String) : (dedupFirst vals).Nodup := by
  induction vals with
  | nil => simp [dedupFirst]
  | cons a vs ih =>
    simp only [dedupFirst, List.nodup_cons]
    refine ⟨?_, ih.filter _⟩
    simp [List.mem_filter]

theorem indexOf_filter_lt (p : String → Bool) (u v : String) (hu : p u = true)
    (hv : p v = true) (l : List String) :
    (l.filter p).indexOf u < (l.filter p).indexOf v ↔ l.indexOf u < l.indexOf v := by
  induction l with
  | nil => simp
  | cons d ds ih =>
    by_cases hd : p d = true
    · rw [List.filter_cons_of_pos hd]
      by_cases hud : d = u
      · subst hud
        by_cases hvd : d = v
        · subst hvd; simp
        · simp [List.indexOf_cons_ne _ hvd]
      · by_cases hvd : d = v
        · subst hvd; simp [List.indexOf_cons_ne _ hud]
        · simp [List.indexOf_cons_ne _ hud, List.indexOf_cons_ne _ hvd, ih]
    · have hud : d ≠ u := fun h => hd (h ▸ hu)
      have hvd : d ≠ v := fun h => hd (h ▸ hv)
      rw [List.filter_cons_of_neg hd]
      simp [List.indexOf_cons_ne _ hud, List.indexOf_cons_ne _ hvd, ih]

theorem dedupFirst_indexOf_lt (vals : List String) (u v : String) :
    (dedupFirst vals).indexOf u < (dedupFirst vals).indexOf v
      ↔ vals.indexOf u < vals.indexOf v := by
  induction vals with
  | nil => simp [dedupFirst]
  | cons a vs ih =>
    simp only [dedupFirst]
    by_cases hua : a = u
    · subst hua
      by_cases hva : a = v
      · subst hva; simp
      · simp [List.indexOf_cons_ne _ hva]
    · by_cases hva : a = v
      · subst hva; simp [List.indexOf_cons_ne _ hua]
      · have h := indexOf_filter_lt (fun w => decide (w ≠ a)) u v
          (by simpa using Ne.symm hua) (by simpa using Ne.symm hva) (dedupFirst vs)
        simp only [List.indexOf_cons_ne _ hua, List.indexOf_cons_ne _ hva,
          Nat.succ_lt_succ_iff, Nat.add_lt_add_iff_right]
        rw [h, ih]

theorem headerLoop_none (re : Regexp) (k : Nat) (header : List String)
    (h : ∀ cell ∈ header, re cell = false) : headerLoop re k header = -1 := by
  induction header generalizing k with
  | nil => rfl
  | cons c cs ih =>
    have hc : re c = false := h c (List.mem_cons_self c cs)
    simp only [headerLoop, hc]
    exact ih (k + 1) (fun cell hcell => h cell (List.mem_cons_of_mem c hcell))

theorem headerLoop_some (re : Regexp) (k : Nat) (header : List String)
    (h : ∃ cell ∈ header, re cell = true) :
    ∃ col : Nat, headerLoop re k header = ((k + col : Nat) : Int)
      ∧ (∃ cell, header[col]? = some cell ∧ re cell = true)
      ∧ ∀ cell ∈ header.take col, re cell = false := by
  induction header generalizing k with
  | nil => simp at h
  | cons c cs ih =>
    by_cases hc : re c = true
    · exact ⟨0, by simp [headerLoop, hc], ⟨c, by simp, hc⟩, by simp⟩
    · have hc' : re c = false := by simpa using hc
      obtain ⟨cell, hmem, hcell⟩ := h
      have hmem' : cell ∈ cs := by
        rcases List.mem_cons.1 hmem with h1 | h1
        · subst h1; simp [hc'] at hcell
        · exact h1
      obtain ⟨col, h1, ⟨cell', h2, h3⟩, h4⟩ := ih (k + 1) ⟨cell, hmem', hcell⟩
      refine ⟨col + 1, ?_, ⟨cell', by simpa using h2, h3⟩, ?_⟩
      · have hstep : headerLoop re k (c :: cs) = headerLoop re (k + 1) cs := by
          simp [headerLoop, hc']
        rw [hstep, h1]
        push_cast
        omega
      · intro x hx
        simp only [List.take_succ_cons, List.mem_cons] at hx
        rcases hx with hx | hx
        · subst hx; exact hc'
        · exact h4 x hx

theorem headerLoop_ne_neg_one (re : Regexp) (k : Nat) (header : List String) :
    headerLoop re k header = -1 ↔ ∀ cell ∈ header, re cell = false := by
  constructor
  · intro h cell hcell
    by_contra hne
    have hne' : re cell = true := by simpa using hne
    obtain ⟨col, h1, _⟩ := headerLoop_some re k header ⟨cell, hcell, hne'⟩
    rw [h1] at h
    omega
  · exact headerLoop_none re k header

theorem collectLoop_cons (c : Int) (row : List String) (rest : Grid) (valueSet : GoMap Unit)
    (uniqueValues : List String) :
    collectLoop c (row :: rest) (valueSet, uniqueValues)
      = if (row.length : Int) > c then
          if TrimSpace (row.getD c.toNat "") ≠ "" then
            if (valueSet (TrimSpace (row.getD c.toNat ""))).isNone then
              collectLoop c rest (valueSet.set (TrimSpace (row.getD c.toNat "")) (),
                uniqueValues ++ [TrimSpace (row.getD c.toNat "")])
            else collectLoop c rest (valueSet, uniqueValues)
          else collectLoop c rest (valueSet, uniqueValues)
        else collectLoop c rest (valueSet, uniqueValues) := rfl

theorem columnValues_cons_short (col : Nat) (row : List String) (rest : Grid)
    (h : ¬ col < row.length) : columnValues col (row :: rest) = columnValues col rest := by
  have hget : row[col]? = none := by
    simp only [List.getElem?_eq_none_iff]; omega
  simp [columnValues, List.filterMap_cons, hget]

theorem columnValues_cons_long (col : Nat) (row : List String) (rest : Grid)
    (h : col < row.length) :
    columnValues col (row :: rest)
      = if TrimSpace (row.getD col "") = "" then columnValues col rest
        else TrimSpace (row.getD col "") :: columnValues col rest := by
  obtain ⟨x, hx⟩ : ∃ x, row[col]? = some x := ⟨row[col], List.getElem?_eq_getElem h⟩
  have hgd : row.getD col "" = x := by simp [hx]
  rw [hgd]
  by_cases hv : TrimSpace x = ""
  · simp [columnValues, List.filterMap_cons, hx, hv]
  · simp [columnValues, List.filterMap_cons, hx, hv]

theorem collectLoop_eq (col : Nat) (rest : Grid) (valueSet : GoMap Unit)
    (uniqueValues : List String)
    (hinv : ∀ v, valueSet v = none ↔ v ∉ uniqueValues) :
    (collectLoop (col : Int) rest (valueSet, uniqueValues)).2
      = uniqueValues
        ++ (dedupFirst (columnValues col rest)).filter (fun v => decide (v ∉ uniqueValues)) := by
  induction rest generalizing valueSet uniqueValues with
  | nil => simp [collectLoop, columnValues, dedupFirst]
  | cons row rest ih =>
    rw [collectLoop_cons, Int.toNat_ofNat]
    by_cases hlen : col < row.length
    · have hlen' : ((row.length : Int) > (col : Int)) := by exact_mod_cast hlen
      rw [if_pos hlen', columnValues_cons_long col row rest hlen]
      generalize TrimSpace (row.getD col "") = t
      by_cases hv : t = ""
      · rw [if_neg (by simpa using hv), if_pos hv]
        exact ih valueSet uniqueValues hinv
      · rw [if_pos hv, if_neg hv]
        by_cases hseen : valueSet t = none
        · have hnot : t ∉ uniqueValues := (hinv t).1 hseen
          rw [if_pos (by simp [hseen]), ih]
          · simp only [dedupFirst]
            rw [List.filter_cons_of_pos (by simpa using hnot), List.filter_filter]
            simp only [List.append_assoc, List.singleton_append, List.append_cancel_left_eq,
              List.cons.injEq, true_and]
            apply List.filter_congr
            intro x _
            simp only [List.mem_append, List.mem_singleton, not_or, Bool.decide_and,
              decide_not, ne_eq, Bool.and_comm]
          · intro v
            by_cases hvv : v = t
            · subst hvv; simp [GoMap.set]
            · simp [GoMap.set, hvv, hinv v]
        · have hin : t ∈ uniqueValues := by
            by_contra hcon
            exact hseen ((hinv t).2 hcon)
          rw [if_neg (by simpa using hseen), ih valueSet uniqueValues hinv]
          simp only [dedupFirst]
          rw [List.filter_cons_of_neg (by simpa using hin), List.filter_filter]
          simp only [List.append_cancel_left_eq]
          apply List.filter_congr
          intro x _
          by_cases hx : x ∈ uniqueValues
          · simp [hx]
          · have : x ≠ t := fun h => hx (h ▸ hin)
            simp [hx, this]
    · have hlen' : ¬ ((row.length : Int) > (col : Int)) := by
        intro h; exact hlen (by exact_mod_cast h)
      rw [if_neg hlen', columnValues_cons_short col row rest hlen]
      exact ih valueSet uniqueValues hinv

theorem columnValues_mem (col : Nat) (rest : Grid) (v : String) :
    v ∈ columnValues col rest
      ↔ v ≠ "" ∧ ∃ row ∈ rest, ∃ cell, row[col]? = some cell ∧ TrimSpace cell = v := by
  simp only [columnValues, List.mem_filter, List.mem_map, List.mem_filterMap, decide_eq_true_eq]
  constructor
  · rintro ⟨⟨cell, ⟨row, hrow, hcell⟩, hv⟩, hne⟩
    exact ⟨hne, row, hrow, cell, hcell, hv⟩
  · rintro ⟨hne, row, hrow, cell, hcell, hv⟩
    exact ⟨⟨cell, ⟨row, hrow, hcell⟩, hv⟩, hne⟩

/-- C2. On a grid whose first row has a cell matching the header pattern,
`findUniqueValues` returns, without error, the first-occurrence de-duplication
of the trimmed non-empty values found at the target column in the rows after the
header, the target column being that of the first matching header cell. The
result has no duplicate and no empty string; a value is in it iff it is the
trimmed, non-empty text of a cell of that column in a later row; each such value
appears exactly once; and two values stand in the order of their first
occurrences in the column. -/
theorem findUniqueValues_collects (compile : Compiler) (f : File) (sheetName regex : String)
    (re : Regexp) (header : List String) (rest : Grid)
    (hrows : f.GetRows sheetName = (header :: rest, none))
    (hre : compile regex = some re)
    (hmatch : ∃ cell ∈ header, re cell = true) :
    ∃ col : Nat,
      (∃ cell, header[col]? = some cell ∧ re cell = true)
      ∧ (∀ cell ∈ header.take col, re cell = false)
      ∧ findUniqueValues compile f sheetName regex
          = Outcome.ret (dedupFirst (columnValues col rest)) none
      ∧ (dedupFirst (columnValues col rest)).Nodup
      ∧ "" ∉ dedupFirst (columnValues col rest)
      ∧ (∀ v, v ∈ dedupFirst (columnValues col rest)
            ↔ v ≠ "" ∧ ∃ row ∈ rest, ∃ cell, row[col]? = some cell ∧ TrimSpace cell = v)
      ∧ (∀ v ∈ columnValues col rest, (dedupFirst (columnValues col rest)).count v = 1)
      ∧ ∀ u v, (dedupFirst (columnValues col rest)).indexOf u
              < (dedupFirst (columnValues col rest)).indexOf v
            ↔ (columnValues col rest).indexOf u < (columnValues col rest).indexOf v := by
  obtain ⟨col, hcol, hcell, hbefore⟩ := headerLoop_some re 0 header hmatch
  rw [Nat.zero_add] at hcol
  refine ⟨col, hcell, hbefore, ?_, dedupFirst_nodup _, ?_, ?_, ?_, dedupFirst_indexOf_lt _⟩
  · have hne : ¬ ((col : Int) = -1) := by omega
    have hloop := collectLoop_eq col rest GoMap.empty [] (by simp [GoMap.empty])
    simp only [findUniqueValues, hrows, hre, hcol, hne, if_false, hloop]
    simp
  · rw [dedupFirst_mem, columnValues_mem]
    simp
  · intro v
    rw [dedupFirst_mem, columnValues_mem]
  · intro v hv
    exact List.count_eq_one_of_mem (dedupFirst_nodup _) ((dedupFirst_mem _ v).2 hv)

/-- C2, the example of the specification: the column values `B, A, B, C, A`
after the header give `B, A, C`. -/
theorem findUniqueValues_collects_example :
    findUniqueValues literalCompile idBook "SAP" "(?i)Registral"
        = Outcome.ret ["B", "A", "C"] none
      ∧ ∃ col : Nat, findUniqueValues literalCompile idBook "SAP" "(?i)Registral"
          = Outcome.ret (dedupFirst (columnValues col idSheet.rows.tail)) none := by
  refine ⟨by decide, ?_⟩
  obtain ⟨col, -, -, h, -⟩ := findUniqueValues_collects literalCompile idBook "SAP"
    "(?i)Registral" ((literalCompile "(?i)Registral").getD (fun _ => false))
    ["Id", "Finca Registral"] idSheet.rows.tail rfl rfl ⟨"Finca Registral", by decide⟩
  exact ⟨col, h⟩

/-! ## Field extractor -/

theorem fieldLoop_cons (compile : Compiler) (f : File) (fichaSheet field : String)
    (config : FieldConfig) (rest : List (String × FieldConfig)) (results : GoMap String) :
    fieldLoop compile f fichaSheet ((field, config) :: rest) results
      = match fieldStep compile f fichaSheet config with
        | FieldStep.skip => fieldLoop compile f fichaSheet rest results
        | FieldStep.store value => fieldLoop compile f fichaSheet rest (results.set field value)
        | FieldStep.abort err => (results, some err) := by
  rw [fieldLoop, fieldStep]
  split
  · rfl
  · split
    · split
      · rfl
      · split
        · rfl
        · split
          · rfl
          · rfl
    · rfl

theorem fieldLoop_error_iff (compile : Compiler) (f : File) (fichaSheet : String)
    (configs : List (String × FieldConfig)) (results : GoMap String) :
    (fieldLoop compile f fichaSheet configs results).2 ≠ none
      ↔ ∃ entry ∈ configs, ∃ err, fieldStep compile f fichaSheet entry.2 = FieldStep.abort err := by
  induction configs generalizing results with
  | nil => simp [fieldLoop]
  | cons entry rest ih =>
    obtain ⟨field, config⟩ := entry
    rw [fieldLoop_cons]
    cases hstep : fieldStep compile f fichaSheet config with
    | skip => simp [ih, hstep]
    | store value => simp [ih, hstep]
    | abort err => simp [hstep]

theorem fieldLoop_lookup (compile : Compiler) (f : File) (fichaSheet : String)
    (configs : List (String × FieldConfig)) (results m : GoMap String)
    (hnodup : (configs.map Prod.fst).Nodup)
    (hloop : fieldLoop compile f fichaSheet configs results = (m, none)) (k v : String) :
    m k = some v
      ↔ (∃ c, (k, c) ∈ configs ∧ fieldStep compile f fichaSheet c = FieldStep.store v)
        ∨ ((∀ c, (k, c) ∈ configs → ∀ w, fieldStep compile f fichaSheet c ≠ FieldStep.store w)
            ∧ results k = some v) := by
  induction configs generalizing results with
  | nil =>
    simp only [fieldLoop, Prod.mk.injEq, and_true] at hloop
    subst hloop
    simp
  | cons entry rest ih =>
    obtain ⟨field, config⟩ := entry
    simp only [List.map_cons, List.nodup_cons, List.mem_map, Prod.exists, exists_and_right,
      exists_eq_right, not_exists] at hnodup
    obtain ⟨hfresh, hrest⟩ := hnodup
    rw [fieldLoop_cons] at hloop
    cases hstep : fieldStep compile f fichaSheet config with
    | skip =>
      rw [hstep] at hloop
      rw [ih results hrest hloop]
      constructor
      · rintro (⟨c, hc, hs⟩ | ⟨hno, hres⟩)
        · exact Or.inl ⟨c, List.mem_cons_of_mem _ hc, hs⟩
        · refine Or.inr ⟨?_, hres⟩
          intro c hc w
          rcases List.mem_cons.1 hc with h1 | h1
          · simp only [Prod.mk.injEq] at h1
            rw [h1.2, hstep]; simp
          · exact hno c h1 w
      · rintro (⟨c, hc, hs⟩ | ⟨hno, hres⟩)
        · rcases List.mem_cons.1 hc with h1 | h1
          · simp only [Prod.mk.injEq] at h1
            rw [h1.2, hstep] at hs; simp at hs
          · exact Or.inl ⟨c, h1, hs⟩
        · exact Or.inr ⟨fun c hc w => hno c (List.mem_cons_of_mem _ hc) w, hres⟩
    | store value =>
      rw [hstep] at hloop
      rw [ih (results.set field value) hrest hloop]
      by_cases hk : k = field
      · subst hk
        constructor
        · rintro (⟨c, hc, _⟩ | ⟨_, hres⟩)
          · exact absurd hc (hfresh c)
          · simp only [GoMap.set, if_true, Option.some.injEq] at hres
            subst hres
            exact Or.inl ⟨config, List.mem_cons_self _ _, hstep⟩
        · rintro (⟨c, hc, hs⟩ | ⟨hno, _⟩)
          · rcases List.mem_cons.1 hc with h1 | h1
            · simp only [Prod.mk.injEq, true_and] at h1
              rw [h1, hstep] at hs
              simp only [FieldStep.store.injEq] at hs
              subst hs
              exact Or.inr ⟨fun c hc _ => absurd hc (hfresh c), by simp [GoMap.set]⟩
            · exact absurd h1 (hfresh c)
          · exact absurd hstep (hno config (List.mem_cons_self _ _) value)
      · have hset : (results.set field value) k = results k := by simp [GoMap.set, hk]
        rw [hset]
        constructor
        · rintro (⟨c, hc, hs⟩ | ⟨hno, hres⟩)
          · exact Or.inl ⟨c, List.mem_cons_of_mem _ hc, hs⟩
          · refine Or.inr ⟨?_, hres⟩
            intro c hc w
            rcases List.mem_cons.1 hc with h1 | h1
            · simp only [Prod.mk.injEq] at h1
              exact absurd h1.1 hk
            · exact hno c h1 w
        · rintro (⟨c, hc, hs⟩ | ⟨hno, hres⟩)
          · rcases List.mem_cons.1 hc with h1 | h1
            · simp only [Prod.mk.injEq] at h1
              exact absurd h1.1 hk
            · exact Or.inl ⟨c, h1, hs⟩
          · exact Or.inr ⟨fun c hc w => hno c (List.mem_cons_of_mem _ hc) w, hres⟩
    | abort err =>
      rw [hstep] at hloop
      simp at hloop

theorem findCellInRow_none (re : Regexp) (r k : Nat) (row : List String)
    (h : ∀ cell ∈ row, re cell = false) : findCellInRow re r k row = none := by
  induction row generalizing k with
  | nil => rfl
  | cons c cs ih =>
    have hc : re c = false := h c (List.mem_cons_self c cs)
    simp only [findCellInRow, hc]
    exact ih (k + 1) (fun cell hcell => h cell (List.mem_cons_of_mem c hcell))

theorem findCellInRow_some (re : Regexp) (r k : Nat) (row : List String)
    (h : ∃ cell ∈ row, re cell = true) :
    ∃ c : Nat, (∃ cell, row[c]? = some cell ∧ re cell = true)
      ∧ (∀ cell ∈ row.take c, re cell = false)
      ∧ findCellInRow re r k row
          = some (CoordinatesToCellName (((k + c : Nat) : Int) + 1) ((r : Int) + 1)) := by
  induction row generalizing k with
  | nil => simp at h
  | cons x xs ih =>
    by_cases hx : re x = true
    · exact ⟨0, ⟨x, by simp, hx⟩, by simp, by simp [findCellInRow, hx]⟩
    · have hx' : re x = false := by simpa using hx
      obtain ⟨cell, hmem, hcell⟩ := h
      have hmem' : cell ∈ xs := by
        rcases List.mem_cons.1 hmem with h1 | h1
        · subst h1; simp [hx'] at hcell
        · exact h1
      obtain ⟨c, ⟨cell', h2, h3⟩, h4, h5⟩ := ih (k + 1) ⟨cell, hmem', hcell⟩
      refine ⟨c + 1, ⟨cell', by simpa using h2, h3⟩, ?_, ?_⟩
      · intro y hy
        simp only [List.take_succ_cons, List.mem_cons] at hy
        rcases hy with hy | hy
        · subst hy; exact hx'
        · exact h4 y hy
      · have hstep : findCellInRow re r k (x :: xs) = findCellInRow re r (k + 1) xs := by
          simp [findCellInRow, hx']
        rw [hstep, h5]
        have : k + 1 + c = k + (c + 1) := by omega
        rw [this]

theorem findCellInRows_none (re : Regexp) (k : Nat) (rows : Grid)
    (h : ∀ row ∈ rows, ∀ cell ∈ row, re cell = false) : findCellInRows re k rows = none := by
  induction rows generalizing k with
  | nil => rfl
  | cons row rest ih =>
    simp only [findCellInRows,
      findCellInRow_none re k 0 row (h row (List.mem_cons_self row rest))]
    exact ih (k + 1) (fun row' hrow' => h row' (List.mem_cons_of_mem row hrow'))

theorem findCellInRows_some (re : Regexp) (k : Nat) (rows : Grid)
    (h : ∃ row ∈ rows, ∃ cell ∈ row, re cell = true) :
    ∃ (r c : Nat) (labelRow : List String) (label : String),
      rows[r]? = some labelRow ∧ labelRow[c]? = some label ∧ re label = true
      ∧ (∀ row ∈ rows.take r, ∀ cell ∈ row, re cell = false)
      ∧ (∀ cell ∈ labelRow.take c, re cell = false)
      ∧ findCellInRows re k rows
          = some (CoordinatesToCellName ((c : Int) + 1) (((k + r : Nat) : Int) + 1)) := by
  induction rows generalizing k with
  | nil => simp at h
  | cons row rest ih =>
    by_cases hrow : ∃ cell ∈ row, re cell = true
    · obtain ⟨c, ⟨label, h1, h2⟩, h3, h4⟩ := findCellInRow_some re k 0 row hrow
      refine ⟨0, c, row, label, by simp, h1, h2, by simp, h3, ?_⟩
      simp only [findCellInRows, h4, Nat.zero_add, Nat.add_zero]
    · have hrow' : ∀ cell ∈ row, re cell = false := by
        intro cell hcell
        by_contra hne
        exact hrow ⟨cell, hcell, by simpa using hne⟩
      obtain ⟨row', hmem, hcell⟩ := h
      have hmem' : row' ∈ rest := by
        rcases List.mem_cons.1 hmem with h1 | h1
        · subst h1; exact absurd hcell hrow
        · exact h1
      obtain ⟨r, c, labelRow, label, h1, h2, h3, h4, h5, h6⟩ := ih (k + 1) ⟨row', hmem', hcell⟩
      refine ⟨r + 1, c, labelRow, label, by simpa using h1, h2, h3, ?_, h5, ?_⟩
      · intro y hy
        simp only [List.take_succ_cons, List.mem_cons] at hy
        rcases hy with hy | hy
        · subst hy; exact hrow'
        · exact h4 y hy
      · simp only [findCellInRows, findCellInRow_none re k 0 row hrow', h6]
        have : k + 1 + r = k + (r + 1) := by omega
        rw [this]

theorem wrapInt_eq (n : Int) (h : IsGoInt n) : wrapInt n = n := by
  unfold IsGoInt at h
  unfold wrapInt
  omega

theorem GetCellValue_of_GetRows (f : File) (sheetName : String) (rows : Grid) (col row : Int)
    (hrows : f.GetRows sheetName = (rows, none)) (hvalid : ValidCoordinates col row) :
    f.GetCellValue sheetName (CellName.ref col row)
      = (rows.valueAt (f.GetMergeCells sheetName) col row, none) := by
  unfold File.GetRows at hrows
  unfold File.GetCellValue File.GetMergeCells
  cases hfind : f.sheets.find? (fun s => s.name == sheetName) with
  | none => rw [hfind] at hrows; simp at hrows
  | some s =>
    rw [hfind] at hrows
    simp only [Prod.mk.injEq, and_true] at hrows
    simp [CellNameToCoordinates, hvalid, hrows]

theorem mergeCellsParser_outside (mergeCells : List MergeCell) (col row : Int)
    (h : ∀ mc ∈ mergeCells, mc.contains col row = false) :
    mergeCellsParser mergeCells col row = (col, row) := by
  induction mergeCells with
  | nil => rfl
  | cons mc rest ih =>
    rw [mergeCellsParser, h mc (List.mem_cons_self _ _)]
    exact ih (fun m hm => h m (List.mem_cons_of_mem _ hm))

theorem mergeCellsParser_inside (before after : List MergeCell) (mc : MergeCell)
    (col row : Int) (hbefore : ∀ m ∈ before, m.contains col row = false)
    (hmc : mc.contains col row = true) :
    mergeCellsParser (before ++ mc :: after) col row = (mc.col1, mc.row1) := by
  induction before with
  | nil => simp [mergeCellsParser, hmc]
  | cons m rest ih =>
    rw [List.cons_append, mergeCellsParser, hbefore m (List.mem_cons_self _ _)]
    exact ih (fun x hx => hbefore x (List.mem_cons_of_mem _ hx))

theorem fieldStep_of_label (compile : Compiler) (f : File) (fichaSheet : String) (rows : Grid)
    (config : FieldConfig) (col row : Int)
    (hrows : f.GetRows fichaSheet = (rows, none))
    (hcell : findCellByRegex compile f fichaSheet ("(?i)" ++ config.Regex)
      = (CellName.ref col row, none))
    (hlabel : ValidCoordinates col row)
    (htarget : ValidCoordinates (col + config.OffsetX) (row - config.OffsetY)) :
    fieldStep compile f fichaSheet config
      = FieldStep.store (rows.valueAt (f.GetMergeCells fichaSheet)
          (col + config.OffsetX) (row - config.OffsetY)) := by
  have hx : wrapInt (col + config.OffsetX) = col + config.OffsetX := by
    apply wrapInt_eq
    unfold ValidCoordinates MaxColumns TotalRows at htarget
    unfold IsGoInt
    omega
  have hy : wrapInt (row - config.OffsetY) = row - config.OffsetY := by
    apply wrapInt_eq
    unfold ValidCoordinates MaxColumns TotalRows at htarget
    unfold IsGoInt
    omega
  have hto : CoordinatesToCellName (col + config.OffsetX) (row - config.OffsetY)
      = (CellName.ref (col + config.OffsetX) (row - config.OffsetY), none) := by
    unfold ValidCoordinates at htarget
    unfold CoordinatesToCellName
    rw [if_neg (by omega), if_neg (by omega), if_neg (by omega)]
  simp only [fieldStep, hcell, CellNameToCoordinates, hlabel]
  simp only [ne_eq, reduceCtorEq, not_false_eq_true, if_true]
  rw [hx, hy, hto]
  simp only []
  rw [GetCellValue_of_GetRows f fichaSheet rows _ _ hrows htarget]

theorem fieldStep_skip_of_no_match (compile : Compiler) (f : File) (fichaSheet : String)
    (rows : Grid) (config : FieldConfig)
    (hrows : f.GetRows fichaSheet = (rows, none))
    (hnomatch : ∀ re, compile ("(?i)" ++ config.Regex) = some re →
      ∀ row ∈ rows, ∀ cell ∈ row, re cell = false) :
    fieldStep compile f fichaSheet config = FieldStep.skip := by
  cases hre : compile ("(?i)" ++ config.Regex) with
  | none => simp [fieldStep, findCellByRegex, hrows, hre]
  | some re =>
    simp [fieldStep, findCellByRegex, hrows, hre, findCellInRows_none re 0 rows (hnomatch re hre)]

theorem fieldLoop_filter_skip (compile : Compiler) (f : File) (fichaSheet field : String)
    (configs : List (String × FieldConfig)) (results : GoMap String)
    (hskip : ∀ entry ∈ configs, entry.1 = field →
      fieldStep compile f fichaSheet entry.2 = FieldStep.skip) :
    fieldLoop compile f fichaSheet configs results
      = fieldLoop compile f fichaSheet (configs.filter (fun entry => decide (entry.1 ≠ field)))
          results := by
  induction configs generalizing results with
  | nil => rfl
  | cons entry rest ih =>
    obtain ⟨k, c⟩ := entry
    have hrest : ∀ entry ∈ rest, entry.1 = field →
        fieldStep compile f fichaSheet entry.2 = FieldStep.skip :=
      fun entry hentry => hskip entry (List.mem_cons_of_mem _ hentry)
    by_cases hk : k = field
    · have hs := hskip (k, c) (List.mem_cons_self _ _) hk
      rw [List.filter_cons_of_neg (by simpa using hk), fieldLoop_cons]
      simp only at hs
      rw [hs]
      exact ih results hrest
    · rw [List.filter_cons_of_pos (by simpa using hk), fieldLoop_cons, fieldLoop_cons]
      cases fieldStep compile f fichaSheet c with
      | skip => exact ih results hrest
      | store value => exact ih _ hrest
      | abort err => rfl

theorem processFile_congr (compile : Compiler) (fs : FileSystem) (filePath : String)
    (configs configs' : List (String × FieldConfig))
    (h : ∀ disk fichaSheet, fs filePath = some disk →
      findSheetByRegex compile disk.book "(?i)^FICHA$" = (fichaSheet, none) →
      fieldLoop compile disk.book fichaSheet configs GoMap.empty
        = fieldLoop compile disk.book fichaSheet configs' GoMap.empty) :
    processFile compile fs filePath configs = processFile compile fs filePath configs' := by
  unfold processFile
  cases hopen : fs filePath with
  | none => rfl
  | some disk =>
    simp only
    rcases hficha : findSheetByRegex compile disk.book "(?i)^FICHA$" with ⟨fichaSheet, _ | err⟩
    · simp only
      rw [h disk fichaSheet hopen hficha]
    · rfl

theorem processFile_data (compile : Compiler) (fs : FileSystem) (filePath : String)
    (configs : List (String × FieldConfig)) (out : Output) (err : Option Error)
    (h : processFile compile fs filePath configs = Outcome.ret out err) :
    out.Data = GoMap.empty
      ∨ ∃ disk fichaSheet, fs filePath = some disk
          ∧ findSheetByRegex compile disk.book "(?i)^FICHA$" = (fichaSheet, none)
          ∧ fieldLoop compile disk.book fichaSheet configs GoMap.empty = (out.Data, none) := by
  unfold processFile at h
  cases hopen : fs filePath with
  | none =>
    rw [hopen] at h
    simp only [Outcome.ret.injEq] at h
    left; rw [← h.1]; rfl
  | some disk =>
    rw [hopen] at h
    simp only at h
    rcases hficha : findSheetByRegex compile disk.book "(?i)^FICHA$" with ⟨fichaSheet, _ | e⟩
    · rw [hficha] at h
      simp only at h
      rcases hid : identifierSheet compile disk.book with ⟨sapSheet, _ | e⟩
      · rw [hid] at h
        simp only at h
        rcases hloop : fieldLoop compile disk.book fichaSheet configs GoMap.empty
          with ⟨results, _ | e⟩
        · rw [hloop] at h
          simp only at h
          cases hinfo : disk.info with
          | none => rw [hinfo] at h; simp at h
          | some finfo =>
            rw [hinfo] at h
            simp only at h
            right
            refine ⟨disk, fichaSheet, rfl, hficha, ?_⟩
            cases huniq : findUniqueValues compile disk.book sapSheet "(?i)Registral" with
            | panic msg => rw [huniq] at h; simp at h
            | ret vals e =>
              rw [huniq] at h
              cases e with
              | none =>
                simp only [Outcome.ret.injEq] at h
                rw [← h.1]
                exact hloop
              | some e =>
                simp only [Outcome.ret.injEq] at h
                rw [← h.1]
                exact hloop
        · rw [hloop] at h
          simp only [Outcome.ret.injEq] at h
          left; rw [← h.1]; rfl
      · rw [hid] at h
        simp only [Outcome.ret.injEq] at h
        left; rw [← h.1]; rfl
    · rw [hficha] at h
      simp only [Outcome.ret.injEq] at h
      left; rw [← h.1]; rfl

/-- C4. A field whose pattern matches no cell of the data sheet changes nothing:
processing the file gives the same outcome as processing it with that field
removed from the configuration (the other fields are extracted as before and the
file does not fail on its account), and whatever record `processFile` returns
has no entry for the field in its data map. -/
theorem processFile_omits_unmatched (compile : Compiler) (fs : FileSystem)
    (filePath field : String) (config : FieldConfig) (configs : List (String × FieldConfig))
    (disk : DiskFile) (fichaSheet : String) (rows : Grid)
    (hopen : fs filePath = some disk)
    (hficha : findSheetByRegex compile disk.book "(?i)^FICHA$" = (fichaSheet, none))
    (hrows : disk.book.GetRows fichaSheet = (rows, none))
    (hnodup : (configs.map Prod.fst).Nodup)
    (hmem : (field, config) ∈ configs)
    (hnomatch : ∀ re, compile ("(?i)" ++ config.Regex) = some re →
      ∀ row ∈ rows, ∀ cell ∈ row, re cell = false) :
    processFile compile fs filePath configs
        = processFile compile fs filePath (configs.filter (fun entry => decide (entry.1 ≠ field)))
      ∧ ∀ out err, processFile compile fs filePath configs = Outcome.ret out err →
          out.Data field = none := by
  have hstep := fieldStep_skip_of_no_match compile disk.book fichaSheet rows config hrows hnomatch
  have hskip : ∀ entry ∈ configs, entry.1 = field →
      fieldStep compile disk.book fichaSheet entry.2 = FieldStep.skip := by
    intro entry hentry hkey
    have := List.inj_on_of_nodup_map hnodup hentry hmem hkey
    rw [this]
    exact hstep
  constructor
  · apply processFile_congr
    intro disk' fichaSheet' hopen' hficha'
    rw [hopen] at hopen'
    cases hopen'
    rw [hficha] at hficha'
    cases hficha'
    exact fieldLoop_filter_skip compile disk.book fichaSheet field configs GoMap.empty hskip
  · intro out err hout
    rcases processFile_data compile fs filePath configs out err hout with h | h
    · rw [h]; rfl
    · obtain ⟨disk', fichaSheet', hopen', hficha', hloop⟩ := h
      rw [hopen] at hopen'
      cases hopen'
      rw [hficha] at hficha'
      cases hficha'
      cases hval : out.Data field with
      | none => rfl
      | some v =>
        rw [fieldLoop_lookup compile disk.book fichaSheet configs GoMap.empty out.Data hnodup
          hloop] at hval
        rcases hval with ⟨c, hc, hs⟩ | ⟨_, hempty⟩
        · have := hskip (field, c) hc rfl
          simp only at this
          rw [this] at hs
          simp at hs
        · simp [GoMap.empty] at hempty

/-- C4 on a workbook without the label `CIF:`: the record is the one of the
configuration without the field `cif`, and it has no entry for `cif`. -/
theorem processFile_omits_unmatched_example :
    (processFile literalCompile offerDisk "2024/oferta.xlsx" offerConfigWithCif
        = processFile literalCompile offerDisk "2024/oferta.xlsx" offerConfig)
      ∧ (processFile literalCompile offerDisk "2024/oferta.xlsx" offerConfigWithCif).value?.map
          (fun o => (o.Data "cif", o.Data "name", o.Data "total"))
          = some (none, some "Acme", some "42") := by
  refine ⟨?_, by decide⟩
  exact (processFile_omits_unmatched literalCompile offerDisk "2024/oferta.xlsx" "cif"
    { Regex := "CIF:", OffsetX := 1, OffsetY := 0 } offerConfigWithCif
    { book := offerBook,
      info := some { Name := "oferta.xlsx", BirthTime := 1700000000, ModTime := 1700000500 } }
    "Ficha" offerSheet.rows rfl rfl rfl (by decide) (by decide)
    (by
      intro re hre
      have hre' : re = (literalCompile "(?i)CIF:").getD (fun _ => false) := by
        have h2 : literalCompile "(?i)CIF:" = some re := hre
        rw [h2]; rfl
      subst hre'
      decide)).1

/-! ## Column not found -/

/-- When `findUniqueValues` reports column-not-found: it returns no values
together with that error exactly when the grid has a first row, the pattern
compiles and no cell of the first row matches it, whatever the later rows hold;
and a column-not-found error never comes with values or with another pattern. -/
theorem findUniqueValues_columnNotFound_iff (compile : Compiler) (f : File)
    (sheetName regex : String) :
    (findUniqueValues compile f sheetName regex
        = Outcome.ret [] (some (Error.columnNotFound regex))
      ↔ ∃ re header rest, f.GetRows sheetName = (header :: rest, none)
          ∧ compile regex = some re ∧ ∀ cell ∈ header, re cell = false)
    ∧ ∀ vals pattern, findUniqueValues compile f sheetName regex
          = Outcome.ret vals (some (Error.columnNotFound pattern)) →
        vals = [] ∧ pattern = regex := by
  unfold findUniqueValues File.GetRows
  cases hfind : f.sheets.find? (fun s => s.name == sheetName) with
  | none => simp
  | some s =>
    simp only
    cases hre : compile regex with
    | none => simp
    | some re =>
      simp only
      cases hgrid : s.rows with
      | nil => simp
      | cons header rest =>
        simp only
        by_cases hcol : headerLoop re 0 header = -1
        · have hall := (headerLoop_ne_neg_one re 0 header).1 hcol
          simp only [hcol, if_true, Outcome.ret.injEq, Option.some.injEq,
            Error.columnNotFound.injEq, true_and, Prod.mk.injEq, and_true, List.cons.injEq]
          refine ⟨⟨fun _ => ⟨re, header, rest, ⟨rfl, rfl⟩, rfl, hall⟩, fun _ => trivial⟩, ?_⟩
          intro vals pattern h
          exact ⟨h.1.symm, h.2.symm⟩
        · have hnall : ¬ ∀ cell ∈ header, re cell = false :=
            fun h => hcol ((headerLoop_ne_neg_one re 0 header).2 h)
          simp only [hcol, if_false, Outcome.ret.injEq, reduceCtorEq, and_false, false_iff,
            Prod.mk.injEq, and_true, List.cons.injEq, Option.some.injEq, not_exists, not_and]
          refine ⟨?_, ?_⟩
          · rintro re' header' rest' ⟨h1, _⟩ h2 h3
            subst h1
            cases h2
            exact hnall h3
          · intro vals pattern h
            exact h.elim

/-- The identifier sheet, whose header has no cell matching `Catastral`, gives
column-not-found: the later rows do not matter. -/
theorem findUniqueValues_columnNotFound_example :
    findUniqueValues literalCompile idBook "SAP" "(?i)Catastral"
      = Outcome.ret [] (some (Error.columnNotFound "(?i)Catastral")) :=
  (findUniqueValues_columnNotFound_iff literalCompile idBook "SAP" "(?i)Catastral").1.2
    ⟨(literalCompile "(?i)Catastral").getD (fun _ => false), ["Id", "Finca Registral"],
      idSheet.rows.tail, rfl, rfl, by decide⟩

/-- C5, the code at the failing input and around it. An identifier sheet
without rows has no header cell, so no cell of its first row matches the
pattern; still `findUniqueValues` does not return column-not-found: `rows[0]`
of main.go:199 panics, and the call gives neither values nor an error value.
This holds on every grid without rows, for every pattern that compiles. On a
grid with a first row the claim holds: column-not-found is returned, with no
values, iff no cell of the first row matches. -/
theorem findUniqueValues_empty_grid_no_columnNotFound :
    emptyIdBook.GetRows "SAP" = ([], none)
      ∧ findUniqueValues literalCompile emptyIdBook "SAP" "(?i)Registral"
          ≠ Outcome.ret [] (some (Error.columnNotFound "(?i)Registral"))
      ∧ (findUniqueValues literalCompile emptyIdBook "SAP" "(?i)Registral").error? = none
      ∧ (findUniqueValues literalCompile emptyIdBook "SAP" "(?i)Registral").value? = none
      ∧ (∀ (compile : Compiler) (f : File) (sheetName regex : String) (re : Regexp),
          f.GetRows sheetName = ([], none) → compile regex = some re →
          (∀ cell ∈ (f.GetRows sheetName).1.headD [], re cell = false)
            ∧ findUniqueValues compile f sheetName regex
                = Outcome.panic "index out of range [0] with length 0")
      ∧ ∀ (compile : Compiler) (f : File) (sheetName regex : String) (re : Regexp)
          (header : List String) (rest : Grid),
          f.GetRows sheetName = (header :: rest, none) → compile regex = some re →
          ((∀ cell ∈ header, re cell = false)
            ↔ findUniqueValues compile f sheetName regex
                = Outcome.ret [] (some (Error.columnNotFound regex))) := by
  refine ⟨by decide, by decide, by decide, by decide, ?_, ?_⟩
  · intro compile f sheetName regex re hrows hre
    refine ⟨by rw [hrows]; simp, ?_⟩
    unfold findUniqueValues
    rw [hrows]
    simp only [hre]
  · intro compile f sheetName regex re header rest hrows hre
    rw [(findUniqueValues_columnNotFound_iff compile f sheetName regex).1]
    constructor
    · intro h
      exact ⟨re, header, rest, hrows, hre, h⟩
    · rintro ⟨re', header', rest', hrows', hre', h⟩
      rw [hrows] at hrows'
      rw [hre] at hre'
      simp only [Prod.mk.injEq, List.cons.injEq, and_true] at hrows'
      cases hre'
      rw [hrows'.1]
      exact h

/-! ## Hard failure on an invalid offset target -/

theorem CoordinatesToCellName_ok (col row : Int) (cell : CellName)
    (h : CoordinatesToCellName col row = (cell, none)) :
    cell = CellName.ref col row ∧ ValidCoordinates col row := by
  unfold CoordinatesToCellName at h
  unfold ValidCoordinates
  split_ifs at h with h1 h2 h3
  · simp at h
  · simp at h
  · simp at h
  · simp only [Prod.mk.injEq, and_true] at h
    exact ⟨h.symm, by omega⟩

theorem CoordinatesToCellName_error (col row : Int) (h : ¬ ValidCoordinates col row) :
    CoordinatesToCellName col row
      = (CellName.empty, some (Error.invalidCoordinates col row)) := by
  unfold ValidCoordinates at h
  unfold CoordinatesToCellName
  split_ifs with h1 h2 h3
  · rfl
  · rfl
  · rfl
  · exact absurd (by omega) h

theorem findCellInRow_coordinates (re : Regexp) (r k : Nat) (row : List String)
    (x : CellName × Option Error) (h : findCellInRow re r k row = some x) :
    ∃ a b, x = CoordinatesToCellName a b := by
  induction row generalizing k with
  | nil => simp [findCellInRow] at h
  | cons c cs ih =>
    by_cases hc : re c = true
    · simp only [findCellInRow, hc, if_true, Option.some.injEq] at h
      exact ⟨_, _, h.symm⟩
    · simp only [findCellInRow, hc] at h
      exact ih (k + 1) h

theorem findCellInRows_coordinates (re : Regexp) (k : Nat) (rows : Grid)
    (x : CellName × Option Error) (h : findCellInRows re k rows = some x) :
    ∃ a b, x = CoordinatesToCellName a b := by
  induction rows generalizing k with
  | nil => simp [findCellInRows] at h
  | cons row rest ih =>
    rw [findCellInRows] at h
    cases hrow : findCellInRow re k 0 row with
    | some y =>
      rw [hrow] at h
      simp only [Option.some.injEq] at h
      subst h
      exact findCellInRow_coordinates re k 0 row y hrow
    | none =>
      rw [hrow] at h
      exact ih (k + 1) h

theorem findCellByRegex_ok (compile : Compiler) (f : File) (sheetName regex : String)
    (cell : CellName) (h : findCellByRegex compile f sheetName regex = (cell, none)) :
    ∃ rows col row, f.GetRows sheetName = (rows, none) ∧ cell = CellName.ref col row
      ∧ ValidCoordinates col row := by
  unfold findCellByRegex at h
  rcases hrows : f.GetRows sheetName with ⟨rows, _ | e⟩
  · rw [hrows] at h
    simp only at h
    cases hre : compile regex with
    | none => rw [hre] at h; simp at h
    | some re =>
      rw [hre] at h
      simp only at h
      cases hfind : findCellInRows re 0 rows with
      | none => rw [hfind] at h; simp at h
      | some x =>
        rw [hfind] at h
        simp only at h
        obtain ⟨a, b, hx⟩ := findCellInRows_coordinates re 0 rows x hfind
        rw [h] at hx
        obtain ⟨h1, h2⟩ := CoordinatesToCellName_ok a b cell hx.symm
        exact ⟨rows, a, b, rfl, h1, h2⟩
  · rw [hrows] at h
    simp at h

theorem wrapInt_valid_iff (col row dx dy : Int) (hlabel : ValidCoordinates col row)
    (hx : IsGoInt dx) (hy : IsGoInt dy) :
    ValidCoordinates (wrapInt (col + dx)) (wrapInt (row - dy))
      ↔ ValidCoordinates (col + dx) (row - dy) := by
  unfold ValidCoordinates MaxColumns TotalRows at *
  unfold IsGoInt at hx hy
  unfold wrapInt
  omega

theorem fieldStep_of_label_cases (compile : Compiler) (f : File) (fichaSheet : String)
    (config : FieldConfig) (col row : Int)
    (hcell : findCellByRegex compile f fichaSheet ("(?i)" ++ config.Regex)
      = (CellName.ref col row, none)) :
    (ValidCoordinates (wrapInt (col + config.OffsetX)) (wrapInt (row - config.OffsetY))
        ∧ ∃ value, fieldStep compile f fichaSheet config = FieldStep.store value)
      ∨ (¬ ValidCoordinates (wrapInt (col + config.OffsetX)) (wrapInt (row - config.OffsetY))
        ∧ fieldStep compile f fichaSheet config
            = FieldStep.abort (Error.wrapped
                "no se pudo convertir las coordenadas a nombre de celda"
                (Error.invalidCoordinates (wrapInt (col + config.OffsetX))
                  (wrapInt (row - config.OffsetY))))) := by
  obtain ⟨rows, a, b, hrows, hab, hvalid⟩ :=
    findCellByRegex_ok compile f fichaSheet _ _ hcell
  cases hab
  by_cases ht : ValidCoordinates (wrapInt (col + config.OffsetX)) (wrapInt (row - config.OffsetY))
  · left
    refine ⟨ht, rows.valueAt (f.GetMergeCells fichaSheet) (wrapInt (col + config.OffsetX))
      (wrapInt (row - config.OffsetY)), ?_⟩
    have hto : CoordinatesToCellName (wrapInt (col + config.OffsetX))
        (wrapInt (row - config.OffsetY))
        = (CellName.ref (wrapInt (col + config.OffsetX)) (wrapInt (row - config.OffsetY)),
            none) := by
      have ht' := ht
      unfold ValidCoordinates at ht'
      unfold CoordinatesToCellName
      rw [if_neg (by omega), if_neg (by omega), if_neg (by omega)]
    simp only [fieldStep, hcell, CellNameToCoordinates, hvalid]
    simp only [ne_eq, reduceCtorEq, not_false_eq_true, if_true]
    rw [hto]
    simp only []
    rw [GetCellValue_of_GetRows f fichaSheet rows _ _ hrows ht]
  · right
    refine ⟨ht, ?_⟩
    simp only [fieldStep, hcell, CellNameToCoordinates, hvalid]
    simp only [ne_eq, reduceCtorEq, not_false_eq_true, if_true]
    rw [CoordinatesToCellName_error _ _ ht]

theorem fieldStep_abort_label (compile : Compiler) (f : File) (fichaSheet : String)
    (config : FieldConfig) (err : Error)
    (h : fieldStep compile f fichaSheet config = FieldStep.abort err) :
    ∃ col row, findCellByRegex compile f fichaSheet ("(?i)" ++ config.Regex)
        = (CellName.ref col row, none)
      ∧ ¬ ValidCoordinates (wrapInt (col + config.OffsetX)) (wrapInt (row - config.OffsetY)) := by
  rcases hcell : findCellByRegex compile f fichaSheet ("(?i)" ++ config.Regex)
    with ⟨cell, _ | e⟩
  · obtain ⟨rows, a, b, -, hab, -⟩ := findCellByRegex_ok compile f fichaSheet _ _ hcell
    subst hab
    rcases fieldStep_of_label_cases compile f fichaSheet config a b hcell
      with ⟨_, value, hs⟩ | ⟨hinv, _⟩
    · rw [hs] at h; simp at h
    · exact ⟨a, b, rfl, hinv⟩
  · simp [fieldStep, hcell] at h

theorem processFile_file (compile : Compiler) (fs : FileSystem) (filePath : String)
    (configs : List (String × FieldConfig)) (out : Output)
    (h : processFile compile fs filePath configs = Outcome.ret out none) :
    out.File = filePath := by
  unfold processFile at h
  cases hopen : fs filePath with
  | none => rw [hopen] at h; simp at h
  | some disk =>
    rw [hopen] at h
    simp only at h
    rcases hficha : findSheetByRegex compile disk.book "(?i)^FICHA$" with ⟨fichaSheet, _ | e⟩
    · rw [hficha] at h
      simp only at h
      rcases hid : identifierSheet compile disk.book with ⟨sapSheet, _ | e⟩
      · rw [hid] at h
        simp only at h
        rcases hloop : fieldLoop compile disk.book fichaSheet configs GoMap.empty
          with ⟨results, _ | e⟩
        · rw [hloop] at h
          simp only at h
          cases hinfo : disk.info with
          | none => rw [hinfo] at h; simp at h
          | some finfo =>
            rw [hinfo] at h
            simp only at h
            cases huniq : findUniqueValues compile disk.book sapSheet "(?i)Registral" with
            | panic msg => rw [huniq] at h; simp at h
            | ret vals e =>
              rw [huniq] at h
              cases e with
              | none =>
                simp only [Outcome.ret.injEq, and_true] at h
                rw [← h]
              | some e => simp at h
        · rw [hloop] at h; simp at h
      · rw [hid] at h; simp at h
    · rw [hficha] at h; simp at h

theorem processFile_error_of_loop (compile : Compiler) (fs : FileSystem) (filePath : String)
    (configs : List (String × FieldConfig)) (disk : DiskFile) (fichaSheet : String)
    (hopen : fs filePath = some disk)
    (hficha : findSheetByRegex compile disk.book "(?i)^FICHA$" = (fichaSheet, none))
    (hloop : (fieldLoop compile disk.book fichaSheet configs GoMap.empty).2 ≠ none) :
    ∃ err, processFile compile fs filePath configs = Outcome.ret Output.zero (some err) := by
  unfold processFile
  rw [hopen]
  simp only [hficha]
  rcases hid : identifierSheet compile disk.book with ⟨sapSheet, _ | e⟩
  · simp only
    rcases hl : fieldLoop compile disk.book fichaSheet configs GoMap.empty
      with ⟨results, _ | e⟩
    · rw [hl] at hloop; simp at hloop
    · exact ⟨e, rfl⟩
  · exact ⟨e, rfl⟩

theorem readLoop_done (process : String → Outcome Output) (maxFiles : Int) (i : Nat)
    (files : List String) (results0 results : List Output)
    (h : readLoop process maxFiles i files results0 = Run.done results) :
    ∃ added, results = results0 ++ added
      ∧ ∀ out ∈ added, ∃ path ∈ files, process path = Outcome.ret out none := by
  induction files generalizing i results0 with
  | nil =>
    simp only [readLoop, Run.done.injEq] at h
    exact ⟨[], by simp [h], by simp⟩
  | cons path rest ih =>
    rw [readLoop] at h
    cases hp : process path with
    | panic msg => rw [hp] at h; simp at h
    | ret out e =>
      rw [hp] at h
      cases e with
      | some e =>
        simp only at h
        obtain ⟨added, h1, h2⟩ := ih (i + 1) results0 h
        refine ⟨added, h1, ?_⟩
        intro o ho
        obtain ⟨q, hq, hq'⟩ := h2 o ho
        exact ⟨q, List.mem_cons_of_mem _ hq, hq'⟩
      | none =>
        simp only at h
        split_ifs at h with hmax
        · simp only [Run.done.injEq] at h
          refine ⟨[out], h.symm, ?_⟩
          intro o ho
          simp only [List.mem_singleton] at ho
          subst ho
          exact ⟨path, List.mem_cons_self _ _, hp⟩
        · obtain ⟨added, h1, h2⟩ := ih (i + 1) (results0 ++ [out]) h
          refine ⟨out :: added, by simp [h1], ?_⟩
          intro o ho
          rcases List.mem_cons.1 ho with ho | ho
          · subst ho
            exact ⟨path, List.mem_cons_self _ _, hp⟩
          · obtain ⟨q, hq, hq'⟩ := h2 o ho
            exact ⟨q, List.mem_cons_of_mem _ hq, hq'⟩

/-- C6. When the label of some field is found at `(col, row)` and the target
`(col + offset_x, row - offset_y)` is not a valid coordinate, `processFile`
returns an error for the whole file, whatever the other fields are, and the
directory pass of the read command adds no record for that file. A field whose
label is not found only makes the loop go on to the next field, and the field
loop fails only on a field whose label was found and whose target is invalid. -/
theorem processFile_fails_on_invalid_target (compile : Compiler) (fs : FileSystem)
    (filePath : String) (configs : List (String × FieldConfig)) (disk : DiskFile)
    (fichaSheet field : String) (config : FieldConfig) (col row : Int)
    (hopen : fs filePath = some disk)
    (hficha : findSheetByRegex compile disk.book "(?i)^FICHA$" = (fichaSheet, none))
    (hmem : (field, config) ∈ configs)
    (hlabel : findCellByRegex compile disk.book fichaSheet ("(?i)" ++ config.Regex)
      = (CellName.ref col row, none))
    (hx : IsGoInt config.OffsetX) (hy : IsGoInt config.OffsetY)
    (hinvalid : ¬ ValidCoordinates (col + config.OffsetX) (row - config.OffsetY)) :
    (∃ err, processFile compile fs filePath configs = Outcome.ret Output.zero (some err))
      ∧ (∀ maxFiles i excelFiles results0 results,
          readLoop (fun path => processFile compile fs path configs) maxFiles i excelFiles
              results0 = Run.done results →
          ∃ added, results = results0 ++ added ∧ ∀ out ∈ added, out.File ≠ filePath)
      ∧ (∀ (f : File) (sheet field' : String) (config' : FieldConfig) rest results,
          (findCellByRegex compile f sheet ("(?i)" ++ config'.Regex)).2 ≠ none →
          fieldLoop compile f sheet ((field', config') :: rest) results
            = fieldLoop compile f sheet rest results)
      ∧ (∀ (f : File) (sheet : String) (configs' : List (String × FieldConfig)) results,
          (fieldLoop compile f sheet configs' results).2 ≠ none →
          ∃ entry ∈ configs', ∃ col' row',
            findCellByRegex compile f sheet ("(?i)" ++ entry.2.Regex)
              = (CellName.ref col' row', none)
            ∧ ¬ ValidCoordinates (wrapInt (col' + entry.2.OffsetX))
                (wrapInt (row' - entry.2.OffsetY))) := by
  obtain ⟨_, a, b, -, hab, hvalid⟩ := findCellByRegex_ok compile disk.book fichaSheet _ _ hlabel
  cases hab
  have hwrapped : ¬ ValidCoordinates (wrapInt (col + config.OffsetX))
      (wrapInt (row - config.OffsetY)) :=
    fun h => hinvalid ((wrapInt_valid_iff col row _ _ hvalid hx hy).1 h)
  have hstep : ∃ err, fieldStep compile disk.book fichaSheet config = FieldStep.abort err := by
    rcases fieldStep_of_label_cases compile disk.book fichaSheet config col row hlabel
      with ⟨hv, _⟩ | ⟨_, hs⟩
    · exact absurd hv hwrapped
    · exact ⟨_, hs⟩
  have hloop : (fieldLoop compile disk.book fichaSheet configs GoMap.empty).2 ≠ none :=
    (fieldLoop_error_iff compile disk.book fichaSheet configs GoMap.empty).2
      ⟨(field, config), hmem, hstep⟩
  obtain ⟨err, herr⟩ :=
    processFile_error_of_loop compile fs filePath configs disk fichaSheet hopen hficha hloop
  refine ⟨⟨err, herr⟩, ?_, ?_, ?_⟩
  · intro maxFiles i excelFiles results0 results hrun
    obtain ⟨added, h1, h2⟩ := readLoop_done _ maxFiles i excelFiles results0 results hrun
    refine ⟨added, h1, ?_⟩
    intro out hout hfile
    obtain ⟨path, -, hpath⟩ := h2 out hout
    have hpf := processFile_file compile fs path configs out hpath
    rw [hfile] at hpf
    subst hpf
    have hpath' : processFile compile fs filePath configs = Outcome.ret out none := hpath
    rw [herr] at hpath'
    simp at hpath'
  · intro f sheet field' config' rest results hnone
    rw [fieldLoop_cons]
    have hs : fieldStep compile f sheet config' = FieldStep.skip := by
      rcases hc : findCellByRegex compile f sheet ("(?i)" ++ config'.Regex) with ⟨cell, _ | e⟩
      · rw [hc] at hnone; simp at hnone
      · simp [fieldStep, hc]
    rw [hs]
  · intro f sheet configs' results hfail
    obtain ⟨entry, hentry, e, he⟩ := (fieldLoop_error_iff compile f sheet configs' results).1 hfail
    obtain ⟨col', row', h1, h2⟩ := fieldStep_abort_label compile f sheet entry.2 e he
    exact ⟨entry, hentry, col', row', h1, h2⟩

/-- C6 on a workbook whose label `Total:` stands in row 5, with a vertical
offset of 5: the file fails although `name` could be read, and the directory
pass ends without a record. -/
theorem processFile_fails_on_invalid_target_example :
    findCellByRegex literalCompile offerBook "Ficha" "(?i)Total:" = (CellName.ref 3 5, none)
      ∧ ¬ ValidCoordinates (3 + 2) (5 - 5)
      ∧ (∃ err, processFile literalCompile offerDisk "2024/oferta.xlsx" offerConfigBadOffset
          = Outcome.ret Output.zero (some err))
      ∧ (readLoop (fun path => processFile literalCompile offerDisk path offerConfigBadOffset)
          0 0 ["2024/oferta.xlsx"] []).results?.map List.length = some 0 := by
  refine ⟨by decide, by decide, ?_, by decide⟩
  exact (processFile_fails_on_invalid_target literalCompile offerDisk "2024/oferta.xlsx"
    offerConfigBadOffset
    { book := offerBook,
      info := some { Name := "oferta.xlsx", BirthTime := 1700000000, ModTime := 1700000500 } }
    "Ficha" "total" { Regex := "Total:", OffsetX := 2, OffsetY := 5 } 3 5
    rfl rfl (by decide) (by decide) (by decide) (by decide) (by decide)).1

/-! ## The maximum number of files -/

/-- C7, the code at the failing input. With `--max 1` and a first file that
fails, the test `(i + 1) == maxFiles` is skipped by the `continue` of
cmd.go:273 and is false for every later index: the pass processes all three
files and adds two records. -/
theorem readLoop_exceeds_max :
    (readLoop (fun path => processFile literalCompile threeOffersDisk path offerConfig)
        1 0 ["2024/a.xlsx", "2024/b.xlsx", "2024/c.xlsx"] []).results?.map
      (fun results => results.map Output.File) = some ["2024/b.xlsx", "2024/c.xlsx"] := by
  decide

/-! ## Sheet locator -/

theorem findSheetLoop_none (re : Regexp) (names : List String) :
    findSheetLoop re names = none ↔ ∀ s ∈ names, re s = false := by
  induction names with
  | nil => simp [findSheetLoop]
  | cons n ns ih =>
    by_cases hn : re n = true
    · simp [findSheetLoop, hn]
    · have hn' : re n = false := by simpa using hn
      simp [findSheetLoop, hn', ih]

theorem findSheetLoop_some (re : Regexp) (names : List String) (sheet : String) :
    findSheetLoop re names = some sheet ↔ IsFirstMatch re names sheet := by
  induction names with
  | nil => simp [findSheetLoop, IsFirstMatch]
  | cons n ns ih =>
    by_cases hn : re n = true
    · simp only [findSheetLoop, hn, if_true, Option.some.injEq]
      constructor
      · intro h
        subst h
        exact ⟨[], ns, rfl, hn, by simp⟩
      · rintro ⟨before, after, h1, h2, h3⟩
        cases before with
        | nil =>
          simp only [List.nil_append, List.cons.injEq] at h1
          exact h1.1
        | cons b bs =>
          simp only [List.cons_append, List.cons.injEq] at h1
          have := h3 b (List.mem_cons_self _ _)
          rw [← h1.1, hn] at this
          simp at this
    · have hn' : re n = false := by simpa using hn
      simp only [findSheetLoop, hn', Bool.false_eq_true, if_false, ih]
      constructor
      · rintro ⟨before, after, h1, h2, h3⟩
        refine ⟨n :: before, after, by simp [h1], h2, ?_⟩
        intro s hs
        rcases List.mem_cons.1 hs with hs | hs
        · subst hs; exact hn'
        · exact h3 s hs
      · rintro ⟨before, after, h1, h2, h3⟩
        cases before with
        | nil =>
          simp only [List.nil_append, List.cons.injEq] at h1
          rw [← h1.1, hn'] at h2
          simp at h2
        | cons b bs =>
          simp only [List.cons_append, List.cons.injEq] at h1
          exact ⟨bs, after, h1.2, h2, fun s hs => h3 s (List.mem_cons_of_mem _ hs)⟩

theorem findSheetByRegex_ok_iff (compile : Compiler) (f : File) (regex : String) (re : Regexp)
    (hre : compile regex = some re) (sheet : String) :
    findSheetByRegex compile f regex = (sheet, none) ↔ IsFirstMatch re f.GetSheetList sheet := by
  rw [← findSheetLoop_some]
  unfold findSheetByRegex
  rw [hre]
  cases hloop : findSheetLoop re f.GetSheetList with
  | none => simp [hloop]
  | some s => simp [hloop]

theorem findSheetByRegex_error_iff (compile : Compiler) (f : File) (regex : String)
    (re : Regexp) (hre : compile regex = some re) :
    ((findSheetByRegex compile f regex).2 ≠ none ↔ ∀ s ∈ f.GetSheetList, re s = false)
      ∧ (findSheetByRegex compile f regex = ("", some (Error.sheetNotFound regex))
          ↔ ∀ s ∈ f.GetSheetList, re s = false) := by
  rw [← findSheetLoop_none]
  unfold findSheetByRegex
  rw [hre]
  cases hloop : findSheetLoop re f.GetSheetList with
  | none => simp [hloop]
  | some s => simp [hloop]

theorem identifierSheet_ok_iff (compile : Compiler) (f : File) (reSap reOferta : Regexp)
    (hS : compile "(?i)^SAP$" = some reSap) (hO : compile "(?i)^OFERTA$" = some reOferta)
    (sheet : String) :
    identifierSheet compile f = (sheet, none)
      ↔ IsFirstMatch reSap f.GetSheetList sheet
        ∨ ((∀ s ∈ f.GetSheetList, reSap s = false)
            ∧ IsFirstMatch reOferta f.GetSheetList sheet) := by
  have hsap := findSheetByRegex_ok_iff compile f _ reSap hS
  have hsapE := (findSheetByRegex_error_iff compile f _ reSap hS).1
  have hof := findSheetByRegex_ok_iff compile f _ reOferta hO
  unfold identifierSheet
  rcases h1 : findSheetByRegex compile f "(?i)^SAP$" with ⟨s1, _ | e1⟩
  · have hfirst := (hsap s1).1 h1
    simp only [Prod.mk.injEq, and_true]
    constructor
    · intro h; subst h; exact Or.inl hfirst
    · rintro (h | ⟨hnone, _⟩)
      · have h' := (hsap sheet).2 h
        rw [h1] at h'
        simp only [Prod.mk.injEq, and_true] at h'
        exact h'
      · obtain ⟨before, after, hl, hm, _⟩ := hfirst
        have := hnone s1 (by rw [hl]; simp)
        rw [hm] at this
        simp at this
  · have hnone : ∀ s ∈ f.GetSheetList, reSap s = false := hsapE.1 (by rw [h1]; simp)
    simp only
    rcases h2 : findSheetByRegex compile f "(?i)^OFERTA$" with ⟨s2, _ | e2⟩
    · simp only [Prod.mk.injEq, and_true]
      rw [← hof sheet, h2]
      simp only [Prod.mk.injEq, and_true]
      constructor
      · intro h; exact Or.inr ⟨hnone, h⟩
      · rintro (⟨before, after, hl, hm, _⟩ | ⟨_, h⟩)
        · have := hnone sheet (by rw [hl]; simp)
          rw [hm] at this
          simp at this
        · exact h
    · simp only [Prod.mk.injEq, reduceCtorEq, and_false, false_iff, not_or, not_and]
      refine ⟨?_, ?_⟩
      · rintro ⟨before, after, hl, hm, _⟩
        have := hnone sheet (by rw [hl]; simp)
        rw [hm] at this
        simp at this
      · intro _ h
        have h' := (hof sheet).2 h
        rw [h2] at h'
        simp at h'

theorem identifierSheet_error_iff (compile : Compiler) (f : File) (reSap reOferta : Regexp)
    (hS : compile "(?i)^SAP$" = some reSap) (hO : compile "(?i)^OFERTA$" = some reOferta) :
    ((identifierSheet compile f).2 ≠ none
        ↔ (∀ s ∈ f.GetSheetList, reSap s = false) ∧ ∀ s ∈ f.GetSheetList, reOferta s = false)
      ∧ ∀ err, (identifierSheet compile f).2 = some err → err.isSheetNotFound = true := by
  have hsapE := findSheetByRegex_error_iff compile f _ reSap hS
  have hofE := findSheetByRegex_error_iff compile f _ reOferta hO
  unfold identifierSheet
  rcases h1 : findSheetByRegex compile f "(?i)^SAP$" with ⟨s1, _ | e1⟩
  · have hnot : ¬ ∀ s ∈ f.GetSheetList, reSap s = false := by
      intro h
      have := hsapE.1.2 h
      rw [h1] at this
      simp at this
    simp [hnot]
  · have hnone : ∀ s ∈ f.GetSheetList, reSap s = false := hsapE.1.1 (by rw [h1]; simp)
    simp only
    rcases h2 : findSheetByRegex compile f "(?i)^OFERTA$" with ⟨s2, _ | e2⟩
    · have hnot : ¬ ∀ s ∈ f.GetSheetList, reOferta s = false := by
        intro h
        have := hofE.1.2 h
        rw [h2] at this
        simp at this
      simp [hnot]
    · have hnone2 : ∀ s ∈ f.GetSheetList, reOferta s = false := hofE.1.1 (by rw [h2]; simp)
      have h2' := hofE.2.2 hnone2
      rw [h2] at h2'
      simp only [Prod.mk.injEq, Option.some.injEq] at h2'
      refine ⟨by simp only [ne_eq, reduceCtorEq, not_false_eq_true, true_iff]; exact ⟨hnone, hnone2⟩, ?_⟩
      intro err herr
      simp only [Option.some.injEq] at herr
      rw [← herr, h2'.2]
      rfl

theorem fieldLoop_error_form (compile : Compiler) (f : File) (fichaSheet : String)
    (configs : List (String × FieldConfig)) (results m : GoMap String) (err : Error)
    (h : fieldLoop compile f fichaSheet configs results = (m, some err)) :
    err.isSheetNotFound = false := by
  induction configs generalizing results with
  | nil => simp [fieldLoop] at h
  | cons entry rest ih =>
    obtain ⟨field, config⟩ := entry
    rw [fieldLoop_cons] at h
    cases hstep : fieldStep compile f fichaSheet config with
    | skip => rw [hstep] at h; exact ih results h
    | store value => rw [hstep] at h; exact ih _ h
    | abort e =>
      rw [hstep] at h
      simp only [Prod.mk.injEq, Option.some.injEq] at h
      obtain ⟨col, row, hcell, _⟩ := fieldStep_abort_label compile f fichaSheet config e hstep
      rcases fieldStep_of_label_cases compile f fichaSheet config col row hcell
        with ⟨_, value, hs⟩ | ⟨_, hs⟩
      · rw [hs] at hstep; simp at hstep
      · rw [hs] at hstep
        simp only [FieldStep.abort.injEq] at hstep
        rw [← h.2, ← hstep]
        rfl

theorem findUniqueValues_error_form (compile : Compiler) (f : File) (sheetName regex : String)
    (vals : List String) (err : Error)
    (h : findUniqueValues compile f sheetName regex = Outcome.ret vals (some err)) :
    ∀ pattern, err ≠ Error.sheetNotFound pattern := by
  intro pattern hp
  subst hp
  unfold findUniqueValues File.GetRows at h
  cases hfind : f.sheets.find? (fun s => s.name == sheetName) with
  | none => rw [hfind] at h; simp at h
  | some s =>
    rw [hfind] at h
    simp only at h
    cases hre : compile regex with
    | none => rw [hre] at h; simp at h
    | some re =>
      rw [hre] at h
      simp only at h
      cases hgrid : s.rows with
      | nil => rw [hgrid] at h; simp at h
      | cons header rest =>
        rw [hgrid] at h
        simp only at h
        split_ifs at h <;> simp at h

theorem processFile_error_cases (compile : Compiler) (fs : FileSystem) (filePath : String)
    (configs : List (String × FieldConfig)) (disk : DiskFile) (fichaSheet sapSheet : String)
    (out : Output) (err : Error)
    (hopen : fs filePath = some disk)
    (hficha : findSheetByRegex compile disk.book "(?i)^FICHA$" = (fichaSheet, none))
    (hid : identifierSheet compile disk.book = (sapSheet, none))
    (h : processFile compile fs filePath configs = Outcome.ret out (some err)) :
    err.isSheetNotFound = false := by
  unfold processFile at h
  rw [hopen] at h
  simp only [hficha, hid] at h
  rcases hloop : fieldLoop compile disk.book fichaSheet configs GoMap.empty
    with ⟨results, _ | e⟩
  · rw [hloop] at h
    simp only at h
    cases hinfo : disk.info with
    | none => rw [hinfo] at h; simp at h
    | some finfo =>
      rw [hinfo] at h
      simp only at h
      cases huniq : findUniqueValues compile disk.book sapSheet "(?i)Registral" with
      | panic msg => rw [huniq] at h; simp at h
      | ret vals e =>
        rw [huniq] at h
        cases e with
        | none => simp at h
        | some e =>
          simp only [Outcome.ret.injEq, Option.some.injEq] at h
          have hform := findUniqueValues_error_form compile disk.book sapSheet _ vals e huniq
          rw [← h.2]
          cases e <;> first | rfl | exact absurd rfl (hform _)
  · rw [hloop] at h
    simp only [Outcome.ret.injEq, Option.some.injEq] at h
    rw [← h.2]
    exact fieldLoop_error_form compile disk.book fichaSheet configs GoMap.empty results e hloop

/-- C8, as amended. `findSheetByRegex` returns the first sheet name, in workbook
order, that the pattern matches, and fails, with the sheet-not-found error, iff
no name matches. The identifier sheet is the first sheet matching `(?i)^SAP$`
if there is one, otherwise the first matching `(?i)^OFERTA$`, and there is none
iff no name matches either pattern. `processFile` fails with a sheet-not-found
error iff no sheet matches `(?i)^FICHA$` or none matches either of `(?i)^SAP$`
and `(?i)^OFERTA$`. -/
theorem processFile_sheet_not_found_iff (compile : Compiler) (fs : FileSystem)
    (filePath : String) (configs : List (String × FieldConfig)) (disk : DiskFile)
    (reFicha reSap reOferta : Regexp)
    (hopen : fs filePath = some disk)
    (hF : compile "(?i)^FICHA$" = some reFicha)
    (hS : compile "(?i)^SAP$" = some reSap)
    (hO : compile "(?i)^OFERTA$" = some reOferta) :
    (∀ (f : File) (regex : String) (re : Regexp), compile regex = some re →
        (∀ sheet, findSheetByRegex compile f regex = (sheet, none)
            ↔ IsFirstMatch re f.GetSheetList sheet)
        ∧ ((findSheetByRegex compile f regex).2 ≠ none ↔ ∀ s ∈ f.GetSheetList, re s = false)
        ∧ (findSheetByRegex compile f regex = ("", some (Error.sheetNotFound regex))
            ↔ ∀ s ∈ f.GetSheetList, re s = false))
      ∧ (∀ sheet, identifierSheet compile disk.book = (sheet, none)
          ↔ IsFirstMatch reSap disk.book.GetSheetList sheet
            ∨ ((∀ s ∈ disk.book.GetSheetList, reSap s = false)
                ∧ IsFirstMatch reOferta disk.book.GetSheetList sheet))
      ∧ ((identifierSheet compile disk.book).2 ≠ none
          ↔ (∀ s ∈ disk.book.GetSheetList, reSap s = false)
            ∧ ∀ s ∈ disk.book.GetSheetList, reOferta s = false)
      ∧ ((∃ out err, processFile compile fs filePath configs = Outcome.ret out (some err)
              ∧ err.isSheetNotFound = true)
          ↔ (∀ s ∈ disk.book.GetSheetList, reFicha s = false)
            ∨ ((∀ s ∈ disk.book.GetSheetList, reSap s = false)
                ∧ ∀ s ∈ disk.book.GetSheetList, reOferta s = false)) := by
  refine ⟨?_, identifierSheet_ok_iff compile disk.book reSap reOferta hS hO,
    (identifierSheet_error_iff compile disk.book reSap reOferta hS hO).1, ?_⟩
  · intro f regex re hre
    exact ⟨findSheetByRegex_ok_iff compile f regex re hre,
      (findSheetByRegex_error_iff compile f regex re hre).1,
      (findSheetByRegex_error_iff compile f regex re hre).2⟩
  · have hfE := findSheetByRegex_error_iff compile disk.book _ reFicha hF
    have hidE := identifierSheet_error_iff compile disk.book reSap reOferta hS hO
    rcases hficha : findSheetByRegex compile disk.book "(?i)^FICHA$" with ⟨fichaSheet, _ | e⟩
    · have hnotF : ¬ ∀ s ∈ disk.book.GetSheetList, reFicha s = false := by
        intro h
        have := hfE.1.2 h
        rw [hficha] at this
        simp at this
      rcases hid : identifierSheet compile disk.book with ⟨sapSheet, _ | e⟩
      · have hnotId : ¬ ((∀ s ∈ disk.book.GetSheetList, reSap s = false)
            ∧ ∀ s ∈ disk.book.GetSheetList, reOferta s = false) := by
          intro h
          have := hidE.1.2 h
          rw [hid] at this
          simp at this
        constructor
        · rintro ⟨out, err, hpf, herr⟩
          have := processFile_error_cases compile fs filePath configs disk fichaSheet sapSheet
            out err hopen hficha hid hpf
          rw [this] at herr
          simp at herr
        · rintro (h | h)
          · exact absurd h hnotF
          · exact absurd h hnotId
      · have hboth := hidE.1.1 (by rw [hid]; simp)
        have hform := hidE.2 e (by rw [hid])
        constructor
        · intro _; exact Or.inr hboth
        · intro _
          refine ⟨Output.zero, e, ?_, hform⟩
          unfold processFile
          rw [hopen]
          simp only [hficha, hid]
    · have hnone := hfE.1.1 (by rw [hficha]; simp)
      have hexact := hfE.2.2 hnone
      rw [hficha] at hexact
      simp only [Prod.mk.injEq, Option.some.injEq] at hexact
      constructor
      · intro _; exact Or.inl hnone
      · intro _
        refine ⟨Output.zero, Error.wrapped "no se pudo encontrar la hoja de FICHA" e, ?_, ?_⟩
        · unfold processFile
          rw [hopen]
          simp only [hficha]
        · rw [hexact.2]; rfl

/-- C8, as amended, on a workbook that has the sheets `oferta`, `Ficha`, `Sap`
and `SAP`, in this order: the identifier sheet is `Sap`. -/
theorem processFile_sheet_not_found_iff_example :
    identifierSheet literalCompile twoIdBook = ("Sap", none)
      ∧ findSheetByRegex literalCompile twoIdBook "(?i)^OFERTA$" = ("oferta", none)
      ∧ findSheetByRegex literalCompile twoIdBook "(?i)^FICHA$" = ("Ficha", none)
      ∧ findSheetByRegex literalCompile noFichaBook "(?i)^FICHA$"
          = ("", some (Error.sheetNotFound "(?i)^FICHA$"))
      ∧ ((identifierSheet literalCompile offerBook).2 ≠ none
          ↔ (∀ s ∈ offerBook.GetSheetList,
                (literalCompile "(?i)^SAP$").getD (fun _ => false) s = false)
            ∧ ∀ s ∈ offerBook.GetSheetList,
                (literalCompile "(?i)^OFERTA$").getD (fun _ => false) s = false) := by
  refine ⟨by decide, by decide, by decide, by decide, ?_⟩
  exact (processFile_sheet_not_found_iff literalCompile offerDisk "2024/oferta.xlsx" offerConfig
    { book := offerBook,
      info := some { Name := "oferta.xlsx", BirthTime := 1700000000, ModTime := 1700000500 } }
    ((literalCompile "(?i)^FICHA$").getD (fun _ => false))
    ((literalCompile "(?i)^SAP$").getD (fun _ => false))
    ((literalCompile "(?i)^OFERTA$").getD (fun _ => false)) rfl rfl rfl rfl).2.2.1

/-- C8 as stated fails: the workbook has the data sheet `Ficha` and the
identifier sheet `SAP`, and still its processing fails, because the identifier
sheet has no column `Registral`. -/
theorem processFile_fails_with_sheets_present :
    ¬ (((processFile literalCompile noColumnDisk "2024/sin-columna.xlsx" offerConfig).error?
          ≠ none)
        ↔ ((findSheetByRegex literalCompile noColumnBook "(?i)^FICHA$").2 ≠ none
            ∨ ((findSheetByRegex literalCompile noColumnBook "(?i)^SAP$").2 ≠ none
                ∧ (findSheetByRegex literalCompile noColumnBook "(?i)^OFERTA$").2 ≠ none))) := by
  decide

/-! ## Independence of the traversal order -/

theorem fieldLoop_perm (compile : Compiler) (f : File) (fichaSheet : String)
    (configs₁ configs₂ : List (String × FieldConfig)) (results : GoMap String)
    (hperm : configs₁.Perm configs₂) (hnodup : (configs₁.map Prod.fst).Nodup) :
    ((fieldLoop compile f fichaSheet configs₁ results).2 ≠ none
        ↔ (fieldLoop compile f fichaSheet configs₂ results).2 ≠ none)
      ∧ ((fieldLoop compile f fichaSheet configs₁ results).2 = none →
          (fieldLoop compile f fichaSheet configs₂ results).2 = none →
          (fieldLoop compile f fichaSheet configs₁ results).1
            = (fieldLoop compile f fichaSheet configs₂ results).1) := by
  have hnodup₂ : (configs₂.map Prod.fst).Nodup := (hperm.map Prod.fst).nodup_iff.1 hnodup
  constructor
  · rw [fieldLoop_error_iff, fieldLoop_error_iff]
    constructor
    · rintro ⟨entry, hentry, h⟩
      exact ⟨entry, hperm.mem_iff.1 hentry, h⟩
    · rintro ⟨entry, hentry, h⟩
      exact ⟨entry, hperm.mem_iff.2 hentry, h⟩
  · intro h₁ h₂
    have hl₁ : fieldLoop compile f fichaSheet configs₁ results
        = ((fieldLoop compile f fichaSheet configs₁ results).1, none) := by
      rw [← h₁]
    have hl₂ : fieldLoop compile f fichaSheet configs₂ results
        = ((fieldLoop compile f fichaSheet configs₂ results).1, none) := by
      rw [← h₂]
    funext k
    apply Option.ext
    intro v
    simp only [Option.mem_def]
    rw [fieldLoop_lookup compile f fichaSheet configs₁ results _ hnodup hl₁,
      fieldLoop_lookup compile f fichaSheet configs₂ results _ hnodup₂ hl₂]
    constructor
    · rintro (⟨c, hc, hs⟩ | ⟨hno, hres⟩)
      · exact Or.inl ⟨c, hperm.mem_iff.1 hc, hs⟩
      · exact Or.inr ⟨fun c hc w => hno c (hperm.mem_iff.2 hc) w, hres⟩
    · rintro (⟨c, hc, hs⟩ | ⟨hno, hres⟩)
      · exact Or.inl ⟨c, hperm.mem_iff.2 hc, hs⟩
      · exact Or.inr ⟨fun c hc w => hno c (hperm.mem_iff.1 hc) w, hres⟩

/-- C9. Two traversal orders of the same field configuration (two orderings of
its entries, whose keys are distinct) give the same outcome of `processFile`:
the same record without error in both, or an error in both, or the same panic
in both. -/
theorem processFile_order_independent (compile : Compiler) (fs : FileSystem)
    (filePath : String) (configs₁ configs₂ : List (String × FieldConfig))
    (hperm : configs₁.Perm configs₂) (hnodup : (configs₁.map Prod.fst).Nodup) :
    (∀ out, processFile compile fs filePath configs₁ = Outcome.ret out none
        ↔ processFile compile fs filePath configs₂ = Outcome.ret out none)
      ∧ ((∃ out err, processFile compile fs filePath configs₁ = Outcome.ret out (some err))
          ↔ ∃ out err, processFile compile fs filePath configs₂ = Outcome.ret out (some err))
      ∧ ∀ msg, processFile compile fs filePath configs₁ = Outcome.panic msg
          ↔ processFile compile fs filePath configs₂ = Outcome.panic msg := by
  unfold processFile
  cases hopen : fs filePath with
  | none => simp
  | some disk =>
    simp only
    rcases hficha : findSheetByRegex compile disk.book "(?i)^FICHA$" with ⟨fichaSheet, _ | e⟩
    · simp only
      rcases hid : identifierSheet compile disk.book with ⟨sapSheet, _ | e⟩
      · simp only
        obtain ⟨herr, hmap⟩ :=
          fieldLoop_perm compile disk.book fichaSheet configs₁ configs₂ GoMap.empty hperm hnodup
        rcases h₁ : fieldLoop compile disk.book fichaSheet configs₁ GoMap.empty
          with ⟨results₁, _ | e₁⟩
        · rcases h₂ : fieldLoop compile disk.book fichaSheet configs₂ GoMap.empty
            with ⟨results₂, _ | e₂⟩
          · have heq : results₁ = results₂ := by
              have := hmap (by rw [h₁]) (by rw [h₂])
              rw [h₁, h₂] at this
              exact this
            subst heq
            simp
          · rw [h₁, h₂] at herr
            simp at herr
        · rcases h₂ : fieldLoop compile disk.book fichaSheet configs₂ GoMap.empty
            with ⟨results₂, _ | e₂⟩
          · rw [h₁, h₂] at herr
            simp at herr
          · simp
      · simp
    · simp

/-- C9 on the scenario's workbook: the configuration visited in both orders
gives the same record. -/
theorem processFile_order_independent_example :
    (∀ out, processFile literalCompile offerDisk "2024/oferta.xlsx" offerConfig
          = Outcome.ret out none
        ↔ processFile literalCompile offerDisk "2024/oferta.xlsx" offerConfigReversed
          = Outcome.ret out none)
      ∧ (processFile literalCompile offerDisk "2024/oferta.xlsx" offerConfigReversed).value?.map
          (fun o => (o.Data "name", o.Data "total", o.UniqueIDs))
          = some (some "Acme", some "42", ["B", "A", "C"]) := by
  refine ⟨?_, by decide⟩
  exact (processFile_order_independent literalCompile offerDisk "2024/oferta.xlsx" offerConfig
    offerConfigReversed (List.reverse_perm offerConfig).symm (by decide)).1

/-! ## File walker -/

theorem collectWalk_eq (walk : List Visit) (files : List String) :
    (collectWalk walk files).1
      = files ++ ((walk.takeWhile (fun v => v.err.isNone)).filter
          (fun v => !v.excluded && HasSuffix v.name ".xlsx")).map Visit.path := by
  induction walk generalizing files with
  | nil => simp [collectWalk]
  | cons v rest ih =>
    rw [collectWalk]
    cases herr : v.err with
    | some e => simp [List.takeWhile, herr]
    | none =>
      simp only [List.takeWhile, herr, Option.isNone_none]
      cases hdir : v.isDir <;> cases hpre : HasPrefix v.name "~" <;>
        cases hsuf : HasSuffix v.name ".xlsx" <;>
        simp [Visit.excluded, hdir, hpre, hsuf, ih]

theorem collectWalk_filter (walk : List Visit) (files : List String) :
    collectWalk walk files
      = collectWalk (walk.filter (fun v => v.err.isSome || !v.excluded)) files := by
  induction walk generalizing files with
  | nil => rfl
  | cons v rest ih =>
    cases herr : v.err with
    | some e =>
      rw [List.filter_cons_of_pos (by simp [herr]), collectWalk, collectWalk]
      simp [herr]
    | none =>
      cases hdir : v.isDir <;> cases hpre : HasPrefix v.name "~"
      · rw [List.filter_cons_of_pos (by simp [herr, Visit.excluded, hdir, hpre]),
          collectWalk, collectWalk]
        simp only [herr]
        split_ifs
        · exact ih _
        · exact ih _
      · rw [List.filter_cons_of_neg (by simp [herr, Visit.excluded, hdir, hpre]), collectWalk]
        simp only [herr, hdir, hpre]
        simpa using ih files
      · rw [List.filter_cons_of_neg (by simp [herr, Visit.excluded, hdir, hpre]), collectWalk]
        simp only [herr, hdir, hpre]
        simpa using ih files
      · rw [List.filter_cons_of_neg (by simp [herr, Visit.excluded, hdir, hpre]), collectWalk]
        simp only [herr, hdir, hpre]
        simpa using ih files

theorem countWalk_filter (isPathSeparator : Char → Bool) (walk : List Visit) (c : Counters) :
    countWalk isPathSeparator walk c
      = countWalk isPathSeparator (walk.filter (fun v => v.err.isSome || !v.excluded)) c := by
  induction walk generalizing c with
  | nil => rfl
  | cons v rest ih =>
    cases herr : v.err with
    | some e =>
      rw [List.filter_cons_of_pos (by simp [herr]), countWalk, countWalk]
      simp [herr]
    | none =>
      cases hdir : v.isDir <;> cases hpre : HasPrefix v.name "~"
      · rw [List.filter_cons_of_pos (by simp [herr, Visit.excluded, hdir, hpre]),
          countWalk, countWalk]
        simp only [herr]
        split_ifs
        · exact ih _
        · exact ih _
        · exact ih _
        · exact ih _
        · exact ih _
      · rw [List.filter_cons_of_neg (by simp [herr, Visit.excluded, hdir, hpre]), countWalk]
        simp only [herr, hdir, hpre]
        simpa using ih c
      · rw [List.filter_cons_of_neg (by simp [herr, Visit.excluded, hdir, hpre]), countWalk]
        simp only [herr, hdir, hpre]
        simpa using ih c
      · rw [List.filter_cons_of_neg (by simp [herr, Visit.excluded, hdir, hpre]), countWalk]
        simp only [herr, hdir, hpre]
        simpa using ih c

theorem countWalk_total (isPathSeparator : Char → Bool) (walk : List Visit) (c : Counters) :
    (countWalk isPathSeparator walk c).1.x_files + (countWalk isPathSeparator walk c).1.m_files
        + (countWalk isPathSeparator walk c).1.s_files
        + (countWalk isPathSeparator walk c).1.d_files
      = c.x_files + c.m_files + c.s_files + c.d_files
        + ((walk.takeWhile (fun v => v.err.isNone)).filter (fun v => !v.excluded)).length := by
  induction walk generalizing c with
  | nil => simp [countWalk]
  | cons v rest ih =>
    rw [countWalk]
    cases herr : v.err with
    | some e => simp [List.takeWhile, herr]
    | none =>
      simp only [List.takeWhile, herr, Option.isNone_none]
      cases hdir : v.isDir <;> cases hpre : HasPrefix v.name "~"
      · simp only [Bool.not_false, Bool.and_self, if_true]
        rw [List.filter_cons_of_pos (by simp [Visit.excluded, hdir, hpre])]
        split_ifs <;> rw [ih] <;> simp only [List.length_cons] <;> omega
      · rw [List.filter_cons_of_neg (by simp [Visit.excluded, hdir, hpre])]
        simpa using ih c
      · rw [List.filter_cons_of_neg (by simp [Visit.excluded, hdir, hpre])]
        simpa using ih c
      · rw [List.filter_cons_of_neg (by simp [Visit.excluded, hdir, hpre])]
        simpa using ih c

/-- C10. Over the visits of a walk, up to the first visit that reports an
error: a directory and an entry whose name begins with `~` leave the collected
list and the four counters as they are, whatever the extension, so that both
functions give the same result on the walk with these entries removed;
`collectExcelFiles` returns the paths of exactly the other entries whose name
ends in `.xlsx`, in visit order; and the four counters add up to the number of
the other entries. -/
theorem walk_excludes_temp_files (isPathSeparator : Char → Bool) (walk : List Visit) :
    (collectExcelFiles walk).1
        = ((walk.takeWhile (fun v => v.err.isNone)).filter
            (fun v => !v.isDir && !HasPrefix v.name "~" && HasSuffix v.name ".xlsx")).map
            Visit.path
      ∧ (∀ (v : Visit) (rest : List Visit) (files : List String) (c : Counters),
          v.err = none → (v.isDir = true ∨ HasPrefix v.name "~" = true) →
          collectWalk (v :: rest) files = collectWalk rest files
            ∧ countWalk isPathSeparator (v :: rest) c = countWalk isPathSeparator rest c)
      ∧ collectExcelFiles walk
          = collectExcelFiles (walk.filter (fun v => v.err.isSome || !v.excluded))
      ∧ countExcelFiles isPathSeparator walk
          = countExcelFiles isPathSeparator (walk.filter (fun v => v.err.isSome || !v.excluded))
      ∧ (countExcelFiles isPathSeparator walk).1.x_files
            + (countExcelFiles isPathSeparator walk).1.m_files
            + (countExcelFiles isPathSeparator walk).1.s_files
            + (countExcelFiles isPathSeparator walk).1.d_files
          = ((walk.takeWhile (fun v => v.err.isNone)).filter
              (fun v => !v.isDir && !HasPrefix v.name "~")).length := by
  refine ⟨?_, ?_, collectWalk_filter walk [], countWalk_filter isPathSeparator walk _, ?_⟩
  · unfold collectExcelFiles
    rw [collectWalk_eq]
    simp only [List.nil_append, Visit.excluded, Bool.not_or]
  · intro v rest files c herr hex
    rw [collectWalk, countWalk]
    simp only [herr]
    rcases hex with h | h
    · simp [h]
    · simp [h]
  · unfold countExcelFiles
    rw [countWalk_total]
    simp only [Visit.excluded, Bool.not_or, Nat.zero_add, Nat.add_zero]

/-- C10 on a walk that meets `~temp.xlsx`, `~$b.xlsm` and `~notes.txt` and a
directory named `old.xlsx`: none is collected or counted. -/
theorem walk_excludes_temp_files_example :
    collectExcelFiles offersWalk = (["2024/a.xlsx", "2024/d.xlsx"], none)
      ∧ countExcelFiles (fun c => c == '/') offersWalk
          = ({ x_files := 2, m_files := 1, s_files := 1, d_files := 1 }, none)
      ∧ collectWalk (fileVisit "2024/~temp.xlsx" "~temp.xlsx" :: []) [] = ([], none)
      ∧ collectExcelFiles offersWalk
          = collectExcelFiles (offersWalk.filter (fun v => v.err.isSome || !v.excluded)) := by
  refine ⟨by decide, by decide, by decide, ?_⟩
  exact (walk_excludes_temp_files (fun c => c == '/') offersWalk).2.2.1

/-! ## Sparse grids and the empty identifier sheet -/

/-- C11, the code at the failing input and around it. On an identifier sheet
without rows `rows[0]` of main.go:199 is out of range: `findUniqueValues`
panics instead of returning column-not-found, `processFile` panics with it, and
the directory pass ends in the panic without any record, also for the
well-formed file that follows. This is the only panic of `findUniqueValues`: it
panics iff the sheet exists, the pattern compiles and the grid has no row; on
every grid with a first row it returns, and a row too short for the target
column is skipped. -/
theorem findUniqueValues_panics_on_empty_sheet :
    findUniqueValues literalCompile emptyIdBook "SAP" "(?i)Registral"
        = Outcome.panic "index out of range [0] with length 0"
      ∧ (processFile literalCompile emptyIdDisk "2024/vacia.xlsx" offerConfig).panic?
          = some "index out of range [0] with length 0"
      ∧ (readLoop (fun path => processFile literalCompile emptyIdDisk path offerConfig) 0 0
          ["2024/vacia.xlsx", "2024/oferta.xlsx"] []).panic?
          = some "index out of range [0] with length 0"
      ∧ (∀ (compile : Compiler) (f : File) (sheetName regex : String),
          (∃ msg, findUniqueValues compile f sheetName regex = Outcome.panic msg)
            ↔ ∃ re, f.GetRows sheetName = ([], none) ∧ compile regex = some re)
      ∧ (∀ (compile : Compiler) (f : File) (sheetName regex : String) (header : List String)
          (rest : Grid), f.GetRows sheetName = (header :: rest, none) →
          ∃ vals err, findUniqueValues compile f sheetName regex = Outcome.ret vals err)
      ∧ ∀ (columnIndex : Int) (row : List String) (rest : Grid)
          (state : GoMap Unit × List String), (row.length : Int) ≤ columnIndex →
          collectLoop columnIndex (row :: rest) state = collectLoop columnIndex rest state := by
  refine ⟨by decide, by decide, by decide, ?_, ?_, ?_⟩
  · intro compile f sheetName regex
    unfold findUniqueValues
    rcases hrows : f.GetRows sheetName with ⟨rows, _ | e⟩
    · simp only
      cases hre : compile regex with
      | none => simp
      | some re =>
        simp only
        cases rows with
        | nil => simp
        | cons header rest =>
          simp only
          split_ifs <;> simp
    · simp
  · intro compile f sheetName regex header rest hrows
    unfold findUniqueValues
    rw [hrows]
    simp only
    cases hre : compile regex with
    | none => exact ⟨_, _, rfl⟩
    | some re =>
      simp only
      split_ifs
      · exact ⟨_, _, rfl⟩
      · exact ⟨_, _, rfl⟩
  · intro columnIndex row rest state hshort
    obtain ⟨valueSet, uniqueValues⟩ := state
    rw [collectLoop_cons, if_neg (by omega)]

end Excelfren
